/-
Verification of the SafeCity routing/clustering core against its
natural-language specification.

Shallow embedding conventions:
* JavaScript `number` is modelled as `ℝ` (exact arithmetic; IEEE-754 rounding
  and overflow are outside the model).  Where a claim is about `NaN`
  behaviour, numbers are modelled as `JSNum := Option ℝ` with `none` playing
  the role of `NaN`: every arithmetic operation propagates `none` and every
  comparison involving `none` is false, exactly as `NaN` behaves in JS.
* JS `Set` objects are modelled as lists of the inserted keys, used only
  through membership, which matches `Set.has`/`Set.add` semantics.
* Functions from external libraries that the sources call but do not define
  (`google.maps.geometry.spherical.computeDistanceBetween`) are taken as an
  explicit function parameter.
* `Math.sin`, `Math.cos`, `Math.sqrt`, `Math.atan2` are `Real.sin`,
  `Real.cos`, `Real.sqrt` and a full quadrant-aware `atan2` built from
  `Real.arctan` (signed zeros are not distinguished; for a negative argument
  `Math.sqrt` returns `NaN`, modelled at the `JSNum` level).
-/
import Mathlib

namespace SafeCity

/-! ## JS `Math.atan2` over `ℝ`

Quadrant-aware arctangent, matching `Math.atan2(y, x)` on (finite,
non-signed-zero) doubles. -/

open Classical in
/-- `Math.atan2 y x` for real `y x`: `arctan (y/x)` corrected by quadrant. -/
noncomputable def atan2R (y x : ℝ) : ℝ :=
  if 0 < x then Real.arctan (y / x)
  else if x < 0 then
    (if 0 ≤ y then Real.arctan (y / x) + Real.pi else Real.arctan (y / x) - Real.pi)
  else -- x = 0
    (if 0 < y then Real.pi / 2 else if y < 0 then -(Real.pi / 2) else 0)

/-! ## JS numbers with `NaN`

`JSNum := Option ℝ` models JS numbers where `NaN` (`none`) matters:
arithmetic propagates `none`, comparisons with `none` are false, and
`Math.sqrt` of a negative number is `none`.  (Infinities are collapsed into
`none` as well; none of the verified code can produce one from finite
inputs.) -/

/-- A JS number: `none` is `NaN`. -/
abbrev JSNum := Option ℝ

/-- JS `+` on possibly-NaN numbers. -/
def jadd : JSNum → JSNum → JSNum
  | some x, some y => some (x + y)
  | _, _ => none

/-- JS `-` on possibly-NaN numbers. -/
def jsub : JSNum → JSNum → JSNum
  | some x, some y => some (x - y)
  | _, _ => none

/-- JS `*` on possibly-NaN numbers. -/
def jmul : JSNum → JSNum → JSNum
  | some x, some y => some (x * y)
  | _, _ => none

open Classical in
/-- JS `/` on possibly-NaN numbers (division by `0` gives `±∞` or `NaN` in
JS; both are collapsed to `none` here — never reached by the verified
code). -/
noncomputable def jdiv : JSNum → JSNum → JSNum
  | some x, some y => if y = 0 then none else some (x / y)
  | _, _ => none

/-- `Math.sin`. -/
noncomputable def jsin : JSNum → JSNum
  | some x => some (Real.sin x)
  | none => none

/-- `Math.cos`. -/
noncomputable def jcos : JSNum → JSNum
  | some x => some (Real.cos x)
  | none => none

open Classical in
/-- `Math.sqrt`: `NaN` on negative input. -/
noncomputable def jsqrt : JSNum → JSNum
  | some x => if x < 0 then none else some (Real.sqrt x)
  | none => none

/-- `Math.atan2`. -/
noncomputable def jatan2 : JSNum → JSNum → JSNum
  | some y, some x => some (atan2R y x)
  | _, _ => none

/-- JS `<=`: false whenever either side is `NaN`. -/
def jle : JSNum → JSNum → Prop
  | some x, some y => x ≤ y
  | _, _ => False

/-! ## The incident/hotspot data model

Source: `src/unnamed/part_006` (`frontend/src/types`), fields used by the
clustering code.  `Date` values are modelled by their millisecond
timestamps. -/

/-- `'low' | 'medium' | 'high' | 'critical'`. -/
inductive Severity where
  | low | medium | high | critical
deriving DecidableEq

/-- `'violent' | 'property' | 'disorder' | 'traffic' | 'other'`. -/
inductive IncidentType where
  | violent | property | disorder | traffic | other
deriving DecidableEq

/-- `interface CrimeIncident` from `frontend/src/types`. -/
structure CrimeIncident where
  id : String
  incidentType : IncidentType
  severity : Severity
  latitude : JSNum
  longitude : JSNum
  locationDescription : String
  occurredAt : ℝ
  reportedAt : ℝ
  weatherCondition : Option String
  temperature : Option ℝ
  dayOfWeek : ℝ
  hourOfDay : ℝ
  arrestMade : Bool

/-- `interface ClusterPoint` from `services/mockData.ts`. -/
structure ClusterPoint where
  lat : JSNum
  lng : JSNum
  incidents : List CrimeIncident

/-- `'low' | 'moderate' | 'high' | 'critical'` (hotspot risk level). -/
inductive RiskLevel where
  | low | moderate | high | critical
deriving DecidableEq

/-- The `factors` record of `CrimeHotspot`. -/
structure HotspotFactors where
  historicalCrimes : ℕ
  weatherImpact : ℝ
  timeOfDay : ℝ
  dayOfWeek : ℝ

/-- `interface CrimeHotspot` from `frontend/src/types`.  `riskScore` is the
result of `Math.round`, hence an integer. -/
structure CrimeHotspot where
  id : String
  centerLat : JSNum
  centerLng : JSNum
  radiusMeters : ℝ
  riskScore : ℤ
  riskLevel : RiskLevel
  predictedCrimeTypes : List String
  activeFrom : ℝ
  activeUntil : ℝ
  confidence : ℝ
  factors : HotspotFactors

/-! ## `calculateDistance` and `performDBSCAN`

Source: `src/project1/frontend/src/services/mockData.ts` lines 204-266. -/

/-- Haversine distance in kilometres (`R = 6371`), verbatim from
`calculateDistance` in `mockData.ts`, lifted to possibly-NaN numbers. -/
noncomputable def calculateDistance (lat1 lng1 lat2 lng2 : JSNum) : JSNum :=
  let R : JSNum := some 6371
  let dLat := jdiv (jmul (jsub lat2 lat1) (some Real.pi)) (some 180)
  let dLng := jdiv (jmul (jsub lng2 lng1) (some Real.pi)) (some 180)
  let a := jadd
    (jmul (jsin (jdiv dLat (some 2))) (jsin (jdiv dLat (some 2))))
    (jmul (jmul (jmul (jcos (jdiv (jmul lat1 (some Real.pi)) (some 180)))
                      (jcos (jdiv (jmul lat2 (some Real.pi)) (some 180))))
                (jsin (jdiv dLng (some 2))))
          (jsin (jdiv dLng (some 2))))
  let c := jmul (some 2) (jatan2 (jsqrt a) (jsqrt (jsub (some 1) a)))
  jmul R c

/-- The real value of the intermediate `a` of `calculateDistance` on
non-NaN inputs (used to state when `Math.sqrt` stays real). -/
noncomputable def havA (lat1 lng1 lat2 lng2 : ℝ) : ℝ :=
  Real.sin ((lat2 - lat1) * Real.pi / 180 / 2) *
    Real.sin ((lat2 - lat1) * Real.pi / 180 / 2) +
  ((Real.cos (lat1 * Real.pi / 180) * Real.cos (lat2 * Real.pi / 180)) *
    Real.sin ((lng2 - lng1) * Real.pi / 180 / 2)) *
  Real.sin ((lng2 - lng1) * Real.pi / 180 / 2)

/-- The real value of `calculateDistance` on non-NaN inputs with
`0 ≤ a ≤ 1`. -/
noncomputable def havDist (lat1 lng1 lat2 lng2 : ℝ) : ℝ :=
  6371 * (2 * atan2R (Real.sqrt (havA lat1 lng1 lat2 lng2))
    (Real.sqrt (1 - havA lat1 lng1 lat2 lng2)))

open Classical in
/-- The neighbourhood test of `performDBSCAN`:
`calculateDistance(center.latitude, center.longitude, other.latitude,
other.longitude) <= epsilon`. -/
noncomputable def nearB (epsilon : JSNum) (center other : CrimeIncident) : Bool :=
  @decide (jle (calculateDistance center.latitude center.longitude
      other.latitude other.longitude) epsilon) (Classical.propDecidable _)

/-- The inner `currentNeighbors.forEach` of `performDBSCAN`: push every
neighbour whose id is not yet visited, marking it visited first.  Returns
the updated visited set and the pushed neighbours in order. -/
def pushUnvisited : List CrimeIncident → List String → List String × List CrimeIncident
  | [], visited => (visited, [])
  | n :: ns, visited =>
    if n.id ∈ visited then pushUnvisited ns visited
    else
      let r := pushUnvisited ns (n.id :: visited)
      (r.1, n :: r.2)

/-- Number of distinct incident ids not yet visited; the termination measure
of the cluster-expansion loop. -/
def unvisitedCount (incidents : List CrimeIncident) (visited : List String) : ℕ :=
  (((incidents.map (·.id)).dedup).filter (fun s => decide (s ∉ visited))).length

/-- The `while (queue.length > 0)` cluster-expansion loop of `performDBSCAN`:
pop `current`; skip it if already clustered, else cluster it and - when its
own neighbourhood is dense enough - append its unvisited neighbours to the
queue.  Returns `(clusterIncidents, visited, clustered)`. -/
def bfsExpand (nbr : CrimeIncident → CrimeIncident → Bool)
    (incidents : List CrimeIncident) (minPoints : ℕ) :
    List CrimeIncident → List String → List String → List CrimeIncident →
    List CrimeIncident × List String × List String
  | [], visited, clustered, acc => (acc, visited, clustered)
  | current :: rest, visited, clustered, acc =>
    if current.id ∈ clustered then
      bfsExpand nbr incidents minPoints rest visited clustered acc
    else
      let clustered' := current.id :: clustered
      let acc' := acc ++ [current]
      let currentNeighbors := incidents.filter (fun other => nbr current other)
      if minPoints ≤ currentNeighbors.length then
        let r := pushUnvisited currentNeighbors visited
        bfsExpand nbr incidents minPoints (rest ++ r.2) r.1 clustered' acc'
      else
        bfsExpand nbr incidents minPoints rest visited clustered' acc'
termination_by queue visited _ _ => queue.length + unvisitedCount incidents visited
decreasing_by
  · simp only [List.length_cons]
    omega
  · -- the appended queue elements are exactly the freshly visited ids
    have count_gen : ∀ (l : List String) (s : String) (v : List String),
        l.Nodup → s ∈ l → s ∉ v →
        (l.filter (fun t => decide (t ∉ s :: v))).length + 1 =
          (l.filter (fun t => decide (t ∉ v))).length := by
      intro l
      induction l with
      | nil => intro s v _ hs _; exact absurd hs (List.not_mem_nil s)
      | cons a l ih =>
        intro s v hnd hs hsv
        have hnd' : a ∉ l ∧ l.Nodup := by
          rw [List.nodup_cons] at hnd; exact hnd
        by_cases has : s = a
        · subst has
          have hfeq : l.filter (fun t => decide (t ∉ s :: v)) =
              l.filter (fun t => decide (t ∉ v)) := by
            refine List.filter_congr ?_
            intro t ht
            have hts : t ≠ s := fun h => hnd'.1 (h ▸ ht)
            by_cases h1 : t ∈ v <;> simp [h1, List.mem_cons, hts]
          simp only [List.filter_cons]
          have h1 : (decide (s ∉ s :: v)) = false := by simp [List.mem_cons]
          have h2 : (decide (s ∉ v)) = true := by simpa using hsv
          rw [h1, h2, hfeq]
          simp
        · have hs' : s ∈ l := by
            rcases List.mem_cons.mp hs with h | h
            · exact absurd h has
            · exact h
          have hne : a ≠ s := fun h => has h.symm
          have haeq : (decide (a ∉ s :: v)) = (decide (a ∉ v)) := by
            by_cases h1 : a ∈ v <;> simp [h1, List.mem_cons, hne]
          by_cases hav : a ∈ v
          · have h2 : (decide (a ∉ v)) = false := by simp [hav]
            simp only [List.filter_cons, haeq, h2, Bool.false_eq_true, if_false]
            exact ih s v hnd'.2 hs' hsv
          · have h2 : (decide (a ∉ v)) = true := by simp [hav]
            simp only [List.filter_cons, haeq, h2, if_true, List.length_cons]
            have := ih s v hnd'.2 hs' hsv
            omega
    have count_cons : ∀ (s : String) (v : List String),
        s ∈ incidents.map (·.id) → s ∉ v →
        unvisitedCount incidents (s :: v) + 1 = unvisitedCount incidents v := by
      intro s v hsl hsv
      exact count_gen _ s v (List.nodup_dedup _) (List.mem_dedup.mpr hsl) hsv
    have key : ∀ (ns : List CrimeIncident) (v : List String),
        (∀ n ∈ ns, n.id ∈ incidents.map (·.id)) →
        (pushUnvisited ns v).2.length + unvisitedCount incidents (pushUnvisited ns v).1 =
          unvisitedCount incidents v := by
      intro ns
      induction ns with
      | nil => intro v _; simp [pushUnvisited]
      | cons n ns ih =>
        intro v hmem
        by_cases hv : n.id ∈ v
        · rw [pushUnvisited, if_pos hv]
          exact ih v (fun m hm => hmem m (List.mem_cons_of_mem _ hm))
        · rw [pushUnvisited, if_neg hv]
          have hih := ih (n.id :: v) (fun m hm => hmem m (List.mem_cons_of_mem _ hm))
          have hcc := count_cons n.id v (hmem n (List.mem_cons_self _ _)) hv
          simp only [List.length_cons]
          omega
    have hmem : ∀ n ∈ incidents.filter (fun other => nbr current other),
        n.id ∈ incidents.map (·.id) :=
      fun n hn => List.mem_map_of_mem _ (List.mem_of_mem_filter hn)
    have hkey := key (incidents.filter (fun other => nbr current other)) visited hmem
    simp only [List.length_append, List.length_cons]
    omega
  · simp only [List.length_cons]
    omega

/-- `avgLat`: the JS
`clusterIncidents.reduce((sum, i) => sum + i.latitude, 0) /
clusterIncidents.length`. -/
noncomputable def clusterAvgLat (l : List CrimeIncident) : JSNum :=
  jdiv (l.foldl (fun sum i => jadd sum i.latitude) (some 0)) (some (l.length : ℝ))

/-- `avgLng`, as `avgLat` but over longitudes. -/
noncomputable def clusterAvgLng (l : List CrimeIncident) : JSNum :=
  jdiv (l.foldl (fun sum i => jadd sum i.longitude) (some 0)) (some (l.length : ℝ))

/-- The shape every cluster pushed by `performDBSCAN` has: a non-empty
member list, coordinates that are the means of the members' coordinates,
and every member passed some neighbourhood test. -/
def ClusterOK (nbr : CrimeIncident → CrimeIncident → Bool) (c : ClusterPoint) : Prop :=
  c.incidents ≠ [] ∧ c.lat = clusterAvgLat c.incidents ∧
    c.lng = clusterAvgLng c.incidents ∧
    ∀ m ∈ c.incidents, ∃ x, nbr x m = true

/-- Two visited sets that agree on every id outside a designated "dead"
id list (used to relate a clustering run with the run on the input with
dead records removed). -/
def VisitedAgree (deadIds v1 v2 : List String) : Prop :=
  ∀ s, s ∉ deadIds → (s ∈ v1 ↔ s ∈ v2)

/-- The outer `incidents.forEach` of `performDBSCAN`: seed a cluster at each
unvisited incident whose `eps`-neighbourhood has at least `minPoints`
members, expand it, and record its member list together with the mean of
the members' coordinates. -/
noncomputable def dbscanFold (nbr : CrimeIncident → CrimeIncident → Bool)
    (incidents : List CrimeIncident) (minPoints : ℕ) :
    List CrimeIncident → List String → List String → List ClusterPoint →
    List ClusterPoint
  | [], _, _, clusters => clusters
  | incident :: rest, visited, clustered, clusters =>
    if incident.id ∈ visited then
      dbscanFold nbr incidents minPoints rest visited clustered clusters
    else
      let visited' := incident.id :: visited
      let neighbors := incidents.filter (fun other => nbr incident other)
      if minPoints ≤ neighbors.length then
        let r := bfsExpand nbr incidents minPoints neighbors visited' clustered []
        if 0 < r.1.length then
          dbscanFold nbr incidents minPoints rest r.2.1 r.2.2
            (clusters ++
              [{ lat := clusterAvgLat r.1, lng := clusterAvgLng r.1,
                 incidents := r.1 }])
        else
          dbscanFold nbr incidents minPoints rest r.2.1 r.2.2 clusters
      else
        dbscanFold nbr incidents minPoints rest visited' clustered clusters

/-- `performDBSCAN(incidents, epsilon, minPoints)` from `mockData.ts`
(the source defaults are `epsilon = 0.5` km and `minPoints = 10`). -/
noncomputable def performDBSCAN (incidents : List CrimeIncident)
    (epsilon : JSNum) (minPoints : ℕ) : List ClusterPoint :=
  dbscanFold (nearB epsilon) incidents minPoints incidents [] [] []

/-! ## `predictHotspots`

Source: `src/project1/frontend/src/services/mockData.ts` lines 268-346.
`Date.now()` is made an explicit parameter `now` (milliseconds). -/

/-- The `severityScores` table of `predictHotspots`. -/
def severityScores : Severity → ℝ
  | .low => 10
  | .medium => 30
  | .high => 60
  | .critical => 100

/-- `Math.round` (half-up, as on finite doubles), yielding an integer. -/
noncomputable def jsRound (x : ℝ) : ℤ := ⌊x + 1 / 2⌋

/-- The string key JS uses for an incident type. -/
def incidentTypeName : IncidentType → String
  | .violent => "violent"
  | .property => "property"
  | .disorder => "disorder"
  | .traffic => "traffic"
  | .other => "other"

/-- One step of the `crimeTypeCounts` reduce: JS object update keeps the
insertion order of first occurrences, a fresh key goes to the back. -/
def bumpCount (acc : List (String × ℕ)) (key : String) : List (String × ℕ) :=
  if acc.any (fun kv => kv.1 == key) then
    acc.map (fun kv => if kv.1 == key then (kv.1, kv.2 + 1) else kv)
  else acc ++ [(key, 1)]

open Classical in
/-- The body of the `clusters.map((cluster, index) => ...)` in
`predictHotspots`.  In Lean `x / 0 = 0` where JS would give `NaN`; the
divisor `cluster.incidents.length` is never `0` for clusters produced by
`performDBSCAN`. -/
noncomputable def mkPredictedHotspot (index : ℕ) (cluster : ClusterPoint)
    (currentHour currentDay now : ℝ) : CrimeHotspot :=
  let len : ℝ := cluster.incidents.length
  let baseRiskScore :=
    (cluster.incidents.foldl (fun sum inc => sum + severityScores inc.severity) 0) / len
  let timeMatchScore :=
    ((cluster.incidents.filter
      (fun inc => decide (|inc.hourOfDay - currentHour| ≤ 2))).length : ℝ) / len
  let dayMatchScore :=
    ((cluster.incidents.filter
      (fun inc => decide (inc.dayOfWeek = currentDay))).length : ℝ) / len
  let weatherImpactScore :=
    ((cluster.incidents.filter
      (fun inc => inc.weatherCondition == some "rain"
        || inc.weatherCondition == some "fog")).length : ℝ) / len
  let finalRiskScore := min 100
    (baseRiskScore * 0.5 + timeMatchScore * 25 + dayMatchScore * 15 +
      weatherImpactScore * 10)
  { id := "predicted-hotspot-" ++ toString index
    centerLat := cluster.lat
    centerLng := cluster.lng
    radiusMeters := 500
    riskScore := jsRound finalRiskScore
    riskLevel :=
      if finalRiskScore < 40 then .low
      else if finalRiskScore < 60 then .moderate
      else if finalRiskScore < 80 then .high
      else .critical
    predictedCrimeTypes :=
      (((cluster.incidents.foldl
          (fun acc inc => bumpCount acc (incidentTypeName inc.incidentType)) []).mergeSort
        (fun a b => decide (b.2 ≤ a.2))).take 3).map (·.1)
    activeFrom := now
    activeUntil := now + 12 * 60 * 60 * 1000
    confidence := 0.7 + (len / 100) * 0.3
    factors :=
      { historicalCrimes := cluster.incidents.length
        weatherImpact := weatherImpactScore
        timeOfDay := timeMatchScore
        dayOfWeek := dayMatchScore } }

open Classical in
/-- `predictHotspots(incidents, currentHour, currentDay)` from
`mockData.ts`, with `Date.now()` as the explicit parameter `now`: filter to
the last 30 days, cluster with `eps = 0.5`, `minPoints = 8`, build one
predicted hotspot per cluster, and sort by descending risk score (JS
`Array.sort` is stable, as is `mergeSort`). -/
noncomputable def predictHotspots (incidents : List CrimeIncident)
    (currentHour currentDay now : ℝ) : List CrimeHotspot :=
  let recentIncidents := incidents.filter
    (fun inc => decide ((now - inc.occurredAt) / (1000 * 60 * 60 * 24) ≤ 30))
  let clusters := performDBSCAN recentIncidents (some 0.5) 8
  (clusters.enum.map
    (fun ic => mkPredictedHotspot ic.1 ic.2 currentHour currentDay now)).mergeSort
    (fun a b => decide (b.riskScore ≤ a.riskScore))

/-! ## The backend risk penalty

`backend/routing/route_engine.py` is not among the sources; only the
architecture document quotes it. -/

/-- A backend hotspot record: `hotspot.get("radius", ...)` may be absent. -/
structure PyHotspot where
  lat : ℝ
  lng : ℝ
  radius : Option ℝ
  intensity : ℝ

open Classical in
/-- The four intensity bands of the backend penalty:
`> 200` critical, `> 100` high, `> 40` medium, otherwise low. -/
noncomputable def tierPenalty (intensity : ℝ) : ℝ :=
  if 200 < intensity then 30
  else if 100 < intensity then 15
  else if 40 < intensity then 5
  else 1

open Classical in
/-- Modelled from the spec: `risk_penalty_for_point` of
`backend/routing/route_engine.py` is missing from the sources; this follows
the snippet quoted in the architecture document (`src/unnamed/part_004`,
lines 969-980) and spec §4.2.  The backend `haversine` (metres) is likewise
absent and is taken as the parameter `haversine`. -/
noncomputable def risk_penalty_for_point (haversine : ℝ → ℝ → ℝ → ℝ → ℝ)
    (lat lng : ℝ) (hotspots : List PyHotspot) : ℝ :=
  hotspots.foldl (fun penalty h =>
    let distance := haversine lat lng h.lat h.lng
    let radius := h.radius.getD (150 + h.intensity * 0.8)
    if distance ≤ radius then penalty + tierPenalty h.intensity else penalty) 0

open Classical in
/-- The spec's wording of the same operation (§4.2): the sum, over exactly
those hotspots whose center is within their radius of the point, of the
band penalty of their intensity. -/
noncomputable def penaltyAt_spec (haversine : ℝ → ℝ → ℝ → ℝ → ℝ)
    (lat lng : ℝ) (hotspots : List PyHotspot) : ℝ :=
  ((hotspots.filter (fun h =>
      decide (haversine lat lng h.lat h.lng ≤ h.radius.getD (150 + h.intensity * 0.8)))).map
    (fun h => tierPenalty h.intensity)).sum

/-! ## `RoutePoint` and the route post-processor `smoothPath`

Source: `src/project1/frontend/src/components/Citizen/SafeRoutes.tsx`,
`interface RoutePoint` and `function smoothPath` (lines 135-214). -/

/-- `interface RoutePoint { lat: number; lng: number }`. -/
structure RoutePoint where
  lat : ℝ
  lng : ℝ

instance : Inhabited RoutePoint := ⟨⟨0, 0⟩⟩

open Classical in
/-- The keep-test of `smoothPath`'s Stage 1: keep `curr` when the direction
change between segments `prev→curr` and `curr→next` exceeds `0.087` rad
(`angleDiff > 0.087` with `angle1 = Math.atan2(curr.lat - prev.lat,
curr.lng - prev.lng)` etc.). -/
noncomputable def angleKeep (prev curr next : RoutePoint) : Bool :=
  let angle1 := atan2R (curr.lat - prev.lat) (curr.lng - prev.lng)
  let angle2 := atan2R (next.lat - curr.lat) (next.lng - curr.lng)
  let angleDiff := |angle1 - angle2|
  decide (0.087 < angleDiff)

/-- Stage 1 loop of `smoothPath`: for `i = 1 .. points.length - 2`,
`prev = simplified[simplified.length-1]`, `curr = points[i]`,
`next = points[i+1]`; push `curr` when the keep-test fires.  The accumulator
is kept in reverse order, so `acc.headI` is `simplified[simplified.length-1]`. -/
def simplifyLoop (keep : RoutePoint → RoutePoint → RoutePoint → Bool) :
    List (RoutePoint × RoutePoint) → List RoutePoint → List RoutePoint
  | [], acc => acc
  | (curr, next) :: rest, acc =>
    simplifyLoop keep rest (if keep acc.headI curr next then curr :: acc else acc)

/-- Stage 1 of `smoothPath`: `simplified = [points[0]]`, the loop above over
the index pairs `(points[i], points[i+1])` for `i = 1 .. length-2` (these are
exactly `(points.drop 1).zip (points.drop 2)`), then
`simplified.push(points[points.length-1])`. -/
def simplifyStage (keep : RoutePoint → RoutePoint → RoutePoint → Bool)
    (points : List RoutePoint) : List RoutePoint :=
  (simplifyLoop keep ((points.drop 1).zip (points.drop 2)) [points.headI]).reverse
    ++ [points.getLastD default]

/-- The Catmull-Rom interpolation of `smoothPath`'s Stage 2, verbatim. -/
def catmullRom (p0 p1 p2 p3 : RoutePoint) (t : ℝ) : RoutePoint :=
  let t2 := t * t
  let t3 := t2 * t
  { lat := 0.5 * ((2 * p1.lat) + (-p0.lat + p2.lat) * t +
      (2 * p0.lat - 5 * p1.lat + 4 * p2.lat - p3.lat) * t2 +
      (-p0.lat + 3 * p1.lat - 3 * p2.lat + p3.lat) * t3)
    lng := 0.5 * ((2 * p1.lng) + (-p0.lng + p2.lng) * t +
      (2 * p0.lng - 5 * p1.lng + 4 * p2.lng - p3.lng) * t2 +
      (-p0.lng + 3 * p1.lng - 3 * p2.lng + p3.lng) * t3) }

/-- Stage 2 of `smoothPath`: for `i = 0 .. simplified.length - 2` and
`j = 0 .. 9` (`segmentPoints = 10`) push
`catmullRom(simplified[max(0,i-1)], simplified[i], simplified[i+1],
simplified[min(length-1,i+2)], j/10)`; then push the last control point.
Note `Nat` subtraction makes `i - 1 = max 0 (i-1)`. -/
noncomputable def splineStage (simplified : List RoutePoint) : List RoutePoint :=
  ((List.range (simplified.length - 1)).flatMap fun i =>
    (List.range 10).map fun j : ℕ =>
      catmullRom (simplified.getD (i - 1) default) (simplified.getD i default)
        (simplified.getD (i + 1) default)
        (simplified.getD (min (simplified.length - 1) (i + 2)) default)
        ((j : ℝ) / 10))
    ++ [simplified.getD (simplified.length - 1) default]

/-- One pass of Stage 3's Chaikin corner cutting over the interior: for each
adjacent pair `p, q` push `Qa = 0.75p + 0.25q` and `Rb = 0.25p + 0.75q`. -/
def chaikinMid : List RoutePoint → List RoutePoint
  | p :: q :: rest =>
    ⟨0.75 * p.lat + 0.25 * q.lat, 0.75 * p.lng + 0.25 * q.lng⟩ ::
    ⟨0.25 * p.lat + 0.75 * q.lat, 0.25 * p.lng + 0.75 * q.lng⟩ ::
    chaikinMid (q :: rest)
  | _ => []

/-- One Chaikin iteration of Stage 3: `next = [smoothed[0]]`, the corner-cut
pairs, then `smoothed[smoothed.length-1]`. -/
def chaikinStep (smoothed : List RoutePoint) : List RoutePoint :=
  smoothed.headI :: (chaikinMid smoothed ++ [smoothed.getLastD default])

/-- `smoothPath` from `SafeRoutes.tsx`: inputs of fewer than 2 points pass
through unchanged; otherwise simplify (Stage 1), Catmull-Rom sample
(Stage 2), and apply `iterations = 1` rounds of Chaikin smoothing
(Stage 3). -/
noncomputable def smoothPath (points : List RoutePoint) : List RoutePoint :=
  if points.length < 2 then points
  else chaikinStep^[1] (splineStage (simplifyStage angleKeep points))

/-! ## `scorePath`

Source: `src/project1/frontend/src/components/Citizen/SafeRoutes.tsx` lines
362-378.  The distance function
`google.maps.geometry.spherical.computeDistanceBetween` is an external
library call, taken here as the parameter `dist`. -/

/-- `interface Hotspot` from `SafeRoutes.tsx` (all fields non-optional). -/
structure Hotspot where
  lat : ℝ
  lng : ℝ
  radius : ℝ
  intensity : ℝ

open Classical in
/-- `scorePath(path, hotspots)`: for every path point and every hotspot
closer than its radius, add the hotspot's intensity.  (`h.radius ??
defaultRadius` and `h.intensity ?? 1` are identities on the non-optional
`Hotspot` fields.) -/
noncomputable def scorePath (dist : RoutePoint → RoutePoint → ℝ)
    (path : List RoutePoint) (hotspots : List Hotspot) : ℝ :=
  path.foldl (fun score p =>
    hotspots.foldl (fun score h =>
      let rad := h.radius
      let d := dist p ⟨h.lat, h.lng⟩
      if d < rad then score + h.intensity else score) score) 0

/-! ## Concrete scenario data -/

/-- An incident record with the given id and coordinates; the remaining
fields are irrelevant to clustering. -/
def mkScenIncident (id : String) (lat lng : ℝ) : CrimeIncident :=
  { id := id
    incidentType := .other
    severity := .low
    latitude := some lat
    longitude := some lng
    locationDescription := ""
    occurredAt := 0
    reportedAt := 0
    weatherCondition := none
    temperature := none
    dayOfWeek := 0
    hourOfDay := 0
    arrestMade := false }

/-- Scenario incident at `(12.971, 77.594)` (spec §8). -/
def incScenA : CrimeIncident := mkScenIncident "a" 12.971 77.594

/-- Scenario incident at `(12.9712, 77.5942)`. -/
def incScenB : CrimeIncident := mkScenIncident "b" 12.9712 77.5942

/-- Scenario incident at `(12.9709, 77.5938)`. -/
def incScenC : CrimeIncident := mkScenIncident "c" 12.9709 77.5938

/-- A fourth incident 5 km away: `0.045°` of latitude due north of
`incScenA` is `6371 * 0.045 * π / 180 ≈ 5.004` km. -/
def incScenD : CrimeIncident := mkScenIncident "d" 13.016 77.594

/-- An incident with an out-of-range latitude (`100 ∉ [-90, 90]`) but
perfectly finite coordinates. -/
def badInc (id : String) : CrimeIncident := mkScenIncident id 100 77.594

/-- An incident whose latitude is `NaN`. -/
def nanInc : CrimeIncident := { mkScenIncident "n" 0 0 with latitude := none }

/-- 23 collinear route points `(0, 0), (0, 1), ..., (0, 22)`. -/
def ptsCollinear : List RoutePoint :=
  [⟨0, 0⟩, ⟨0, 1⟩, ⟨0, 2⟩, ⟨0, 3⟩, ⟨0, 4⟩, ⟨0, 5⟩, ⟨0, 6⟩, ⟨0, 7⟩,
   ⟨0, 8⟩, ⟨0, 9⟩, ⟨0, 10⟩, ⟨0, 11⟩, ⟨0, 12⟩, ⟨0, 13⟩, ⟨0, 14⟩, ⟨0, 15⟩,
   ⟨0, 16⟩, ⟨0, 17⟩, ⟨0, 18⟩, ⟨0, 19⟩, ⟨0, 20⟩, ⟨0, 21⟩, ⟨0, 22⟩]

/-!
# Theorems

First the generic lemmas, then one named theorem per claim (with witnesses
and counterexamples where required).
-/

/-! ### `atan2R` -/

theorem atan2R_pos_x {y x : ℝ} (hx : 0 < x) : atan2R y x = Real.arctan (y / x) := by
  simp [atan2R, hx]

theorem atan2R_zero_pos {x : ℝ} (hx : 0 < x) : atan2R 0 x = 0 := by
  rw [atan2R_pos_x hx, zero_div, Real.arctan_zero]

/-! ### `smoothPath`: structural lemmas -/

theorem head?_eq_headI {l : List RoutePoint} (h : l ≠ []) :
    l.head? = some l.headI := by
  cases l with
  | nil => exact absurd rfl h
  | cons a t => rfl

theorem getLast?_eq_getLastD {l : List RoutePoint} (h : l ≠ []) :
    l.getLast? = some (l.getLastD default) := by
  induction l with
  | nil => exact absurd rfl h
  | cons a t ih =>
    cases t with
    | nil => rfl
    | cons b u =>
      rw [List.getLast?_cons_cons, ih (by simp)]
      simp [List.getLastD_cons]

theorem getD_length_sub_one {l : List RoutePoint} (h : l ≠ []) :
    l.getLast? = some (l.getD (l.length - 1) default) := by
  induction l with
  | nil => exact absurd rfl h
  | cons a t ih =>
    cases t with
    | nil => rfl
    | cons b u =>
      rw [List.getLast?_cons_cons, ih (by simp)]
      simp [List.getD_cons_succ, List.length_cons]

theorem simplifyLoop_ne_nil (keep : RoutePoint → RoutePoint → RoutePoint → Bool)
    (pairs : List (RoutePoint × RoutePoint)) (acc : List RoutePoint)
    (h : acc ≠ []) : simplifyLoop keep pairs acc ≠ [] := by
  induction pairs generalizing acc with
  | nil => exact h
  | cons cn rest ih =>
    obtain ⟨c, n⟩ := cn
    rw [simplifyLoop]
    by_cases hk : keep acc.headI c n
    · rw [if_pos hk]; exact ih _ (by simp)
    · rw [if_neg hk]; exact ih _ h

theorem simplifyLoop_getLast? (keep : RoutePoint → RoutePoint → RoutePoint → Bool)
    (pairs : List (RoutePoint × RoutePoint)) (acc : List RoutePoint)
    (h : acc ≠ []) :
    (simplifyLoop keep pairs acc).getLast? = acc.getLast? := by
  induction pairs generalizing acc with
  | nil => rfl
  | cons cn rest ih =>
    obtain ⟨c, n⟩ := cn
    rw [simplifyLoop]
    by_cases hk : keep acc.headI c n
    · rw [if_pos hk, ih _ (by simp)]
      cases acc with
      | nil => exact absurd rfl h
      | cons a t => rw [List.getLast?_cons_cons]
    · rw [if_neg hk]; exact ih _ h

theorem simplifyStage_head? (keep : RoutePoint → RoutePoint → RoutePoint → Bool)
    (points : List RoutePoint) :
    (simplifyStage keep points).head? = some points.headI := by
  rw [simplifyStage]
  have hne : simplifyLoop keep ((points.drop 1).zip (points.drop 2)) [points.headI] ≠ [] :=
    simplifyLoop_ne_nil _ _ _ (by simp)
  rw [List.head?_append_of_ne_nil _ (by simpa using hne), List.head?_reverse,
    simplifyLoop_getLast? _ _ _ (by simp)]
  rfl

theorem simplifyStage_getLast? (keep : RoutePoint → RoutePoint → RoutePoint → Bool)
    (points : List RoutePoint) :
    (simplifyStage keep points).getLast? = some (points.getLastD default) := by
  rw [simplifyStage, List.getLast?_concat]

theorem simplifyStage_length (keep : RoutePoint → RoutePoint → RoutePoint → Bool)
    (points : List RoutePoint) : 2 ≤ (simplifyStage keep points).length := by
  rw [simplifyStage]
  have hne : simplifyLoop keep ((points.drop 1).zip (points.drop 2)) [points.headI] ≠ [] :=
    simplifyLoop_ne_nil _ _ _ (by simp)
  have : 0 < (simplifyLoop keep ((points.drop 1).zip (points.drop 2)) [points.headI]).length :=
    List.length_pos.mpr hne
  simp only [List.length_append, List.length_reverse, List.length_cons, List.length_nil]
  omega

theorem simplifyStage_ne_nil (keep : RoutePoint → RoutePoint → RoutePoint → Bool)
    (points : List RoutePoint) : simplifyStage keep points ≠ [] := by
  have := simplifyStage_length keep points
  intro h
  rw [h] at this
  simp at this

theorem catmullRom_zero (p0 p1 p2 p3 : RoutePoint) :
    catmullRom p0 p1 p2 p3 0 = p1 := by
  simp only [catmullRom]
  cases p1
  congr 1 <;> ring

theorem splineStage_head? {s : List RoutePoint} (h : 2 ≤ s.length) :
    (splineStage s).head? = s.head? := by
  obtain ⟨a, t, rfl⟩ : ∃ a t, s = a :: t := by
    cases s with
    | nil => simp at h
    | cons a t => exact ⟨a, t, rfl⟩
  have h1 : (a :: t).length - 1 = (t.length - 1) + 1 := by
    simp only [List.length_cons] at h ⊢; omega
  have h10 : List.range 10 = 0 :: (List.range 9).map Nat.succ := by decide
  rw [splineStage, h1, List.range_succ_eq_map, List.flatMap_cons, h10, List.map_cons]
  simp only [Nat.cast_zero, zero_div, catmullRom_zero]
  rw [List.cons_append, List.cons_append, List.head?_cons]
  rfl

theorem splineStage_getLast? {s : List RoutePoint} (h : s ≠ []) :
    (splineStage s).getLast? = s.getLast? := by
  rw [splineStage, List.getLast?_concat]
  exact (getD_length_sub_one h).symm

theorem splineStage_length (s : List RoutePoint) :
    (splineStage s).length = 10 * (s.length - 1) + 1 := by
  rw [splineStage, List.length_append, List.length_flatMap]
  have hsum : ∀ (l : List ℕ) (g : ℕ → ℕ → RoutePoint),
      ((l.map (fun i : ℕ => ((List.range 10).map (g i)).length)).sum) = 10 * l.length := by
    intro l g
    induction l with
    | nil => rfl
    | cons x xs ih =>
      rw [List.map_cons, List.sum_cons, ih]
      simp only [List.length_map, List.length_range, List.length_cons]
      ring
  simp only [Function.comp_def]
  rw [hsum]
  simp

theorem splineStage_ne_nil (s : List RoutePoint) : splineStage s ≠ [] := by
  have := splineStage_length s
  intro h
  rw [h] at this
  simp at this

theorem chaikinMid_length {l : List RoutePoint} (h : l ≠ []) :
    (chaikinMid l).length = 2 * (l.length - 1) := by
  induction l with
  | nil => exact absurd rfl h
  | cons a t ih =>
    cases t with
    | nil => rfl
    | cons b u =>
      rw [chaikinMid]
      have := ih (by simp)
      simp only [List.length_cons] at this ⊢
      omega

theorem chaikinStep_length {l : List RoutePoint} (h : l ≠ []) :
    (chaikinStep l).length = 2 * l.length := by
  have hpos : 0 < l.length := List.length_pos.mpr h
  rw [chaikinStep]
  simp only [List.length_cons, List.length_append, chaikinMid_length h,
    List.length_nil]
  omega

theorem chaikinStep_head? (l : List RoutePoint) :
    (chaikinStep l).head? = some l.headI := rfl

theorem chaikinStep_getLast? (l : List RoutePoint) :
    (chaikinStep l).getLast? = some (l.getLastD default) := by
  rw [chaikinStep,
    show l.headI :: (chaikinMid l ++ [l.getLastD default]) =
      (l.headI :: chaikinMid l) ++ [l.getLastD default] from rfl,
    List.getLast?_concat]

/-- C1: for every input point sequence, `smoothPath` returns a sequence with
the same first point and the same last point as the input: the `t = 0`
Catmull-Rom sample reproduces the first control point exactly, the last
control point is pushed verbatim, and the Chaikin pass re-emits both
endpoints unchanged.  (Coordinates are modelled exactly, as reals.) -/
theorem C1_smoothPath_endpoints : ∀ points : List RoutePoint,
    (smoothPath points).head? = points.head? ∧
    (smoothPath points).getLast? = points.getLast? := by
  intro points
  by_cases hlt : points.length < 2
  · rw [smoothPath, if_pos hlt]
    exact ⟨rfl, rfl⟩
  · have h2 : 2 ≤ points.length := not_lt.mp hlt
    have hne : points ≠ [] := by
      intro h; rw [h] at h2; simp at h2
    rw [smoothPath, if_neg hlt, Function.iterate_one]
    have hsl : 2 ≤ (simplifyStage angleKeep points).length := simplifyStage_length _ _
    have hsne : simplifyStage angleKeep points ≠ [] := simplifyStage_ne_nil _ _
    have hspl_ne : splineStage (simplifyStage angleKeep points) ≠ [] :=
      splineStage_ne_nil _
    constructor
    · rw [chaikinStep_head?, ← head?_eq_headI hspl_ne, splineStage_head? hsl,
        simplifyStage_head?]
      exact (head?_eq_headI hne).symm
    · rw [chaikinStep_getLast?, ← getLast?_eq_getLastD hspl_ne,
        splineStage_getLast? hsne, simplifyStage_getLast?]
      exact (getLast?_eq_getLastD hne).symm

/-- C2 (amended): for every input with at least 3 points the output of
`smoothPath` has at least 22 points (so it is strictly longer than any
input of at most 21 points); inputs longer than that can shrink, because
Stage 1 drops near-collinear points (see the counterexample). -/
theorem C2_smoothPath_length_amended : ∀ points : List RoutePoint,
    3 ≤ points.length →
    22 ≤ (smoothPath points).length ∧
      (points.length ≤ 21 → points.length < (smoothPath points).length) := by
  intro points h3
  have hlt : ¬ points.length < 2 := by omega
  have hsl : 2 ≤ (simplifyStage angleKeep points).length := simplifyStage_length _ _
  have h22 : 22 ≤ (smoothPath points).length := by
    rw [smoothPath, if_neg hlt, Function.iterate_one,
      chaikinStep_length (splineStage_ne_nil _), splineStage_length]
    omega
  exact ⟨h22, fun h21 => by omega⟩

/-- Witness for `C2_smoothPath_length_amended` at a concrete 3-point path. -/
theorem C2_smoothPath_length_amended_witness :
    3 ≤ ([⟨0, 0⟩, ⟨0, 1⟩, ⟨1, 0⟩] : List RoutePoint).length ∧
      (22 ≤ (smoothPath [⟨0, 0⟩, ⟨0, 1⟩, ⟨1, 0⟩]).length ∧
        (([⟨0, 0⟩, ⟨0, 1⟩, ⟨1, 0⟩] : List RoutePoint).length ≤ 21 →
          ([⟨0, 0⟩, ⟨0, 1⟩, ⟨1, 0⟩] : List RoutePoint).length <
            (smoothPath [⟨0, 0⟩, ⟨0, 1⟩, ⟨1, 0⟩]).length)) :=
  ⟨by simp, C2_smoothPath_length_amended _ (by simp)⟩

theorem angleKeep_collinear {a b c : ℝ} (hab : a < b) (hbc : b < c) :
    angleKeep ⟨0, a⟩ ⟨0, b⟩ ⟨0, c⟩ = false := by
  simp only [angleKeep]
  apply decide_eq_false
  have h1 : (0 : ℝ) < b - a := by linarith
  have h2 : (0 : ℝ) < c - b := by linarith
  rw [sub_self, atan2R_zero_pos h1, atan2R_zero_pos h2]
  norm_num

theorem simplifyLoop_allFalse (keep : RoutePoint → RoutePoint → RoutePoint → Bool)
    (pairs : List (RoutePoint × RoutePoint)) (acc : List RoutePoint)
    (h : ∀ cn ∈ pairs, keep acc.headI cn.1 cn.2 = false) :
    simplifyLoop keep pairs acc = acc := by
  induction pairs with
  | nil => rfl
  | cons cn rest ih =>
    obtain ⟨c, n⟩ := cn
    rw [simplifyLoop, if_neg (by
      rw [h (c, n) (List.mem_cons_self _ _)]
      exact Bool.false_ne_true)]
    exact ih (fun x hx => h x (List.mem_cons_of_mem _ hx))

/-- C2 (counterexample): 23 collinear points are simplified down to their two
endpoints, so `smoothPath` returns 22 points — fewer than the 23-point
input, refuting both "output length ≥ input length" and "strictly
larger". -/
theorem C2_smoothPath_length_counterexample :
    3 ≤ ptsCollinear.length ∧
      ¬ (ptsCollinear.length ≤ (smoothPath ptsCollinear).length) := by
  have hkeep : ∀ cn ∈ (ptsCollinear.drop 1).zip (ptsCollinear.drop 2),
      angleKeep (([ptsCollinear.headI] : List RoutePoint).headI) cn.1 cn.2 = false := by
    intro cn hcn
    fin_cases hcn <;>
      exact angleKeep_collinear (by norm_num) (by norm_num)
  have hsimp : simplifyStage angleKeep ptsCollinear = [⟨0, 0⟩, ⟨0, 22⟩] := by
    rw [simplifyStage, simplifyLoop_allFalse _ _ _ hkeep]
    rfl
  have hlen : (smoothPath ptsCollinear).length = 22 := by
    rw [smoothPath, if_neg (by decide), Function.iterate_one, hsimp,
      chaikinStep_length (splineStage_ne_nil _), splineStage_length]
    rfl
  refine ⟨by decide, ?_⟩
  rw [hlen]
  decide

/-- C9: `smoothPath` is total by construction (it is a Lean function), and
every input of fewer than 2 points is returned unchanged. -/
theorem C9_smoothPath_total_passthrough : ∀ points : List RoutePoint,
    points.length ≤ 1 → smoothPath points = points := by
  intro points h
  rw [smoothPath, if_pos (by omega)]

/-- Witness for `C9_smoothPath_total_passthrough` on the empty path. -/
theorem C9_smoothPath_total_passthrough_witness :
    ([] : List RoutePoint).length ≤ 1 ∧ smoothPath [] = [] :=
  ⟨by simp, C9_smoothPath_total_passthrough [] (by simp)⟩

/-! ### `scorePath`: risk-score algebra -/

open Classical in
/-- The contribution of a single path point: the summed intensities of the
hotspots strictly closer than their radius. -/
noncomputable def pointScore (dist : RoutePoint → RoutePoint → ℝ)
    (p : RoutePoint) (hotspots : List Hotspot) : ℝ :=
  (hotspots.map (fun h =>
    if dist p ⟨h.lat, h.lng⟩ < h.radius then h.intensity else 0)).sum

theorem inner_foldl_eq (dist : RoutePoint → RoutePoint → ℝ) (p : RoutePoint) :
    ∀ (hotspots : List Hotspot) (a : ℝ),
    hotspots.foldl (fun score h =>
        if dist p ⟨h.lat, h.lng⟩ < h.radius then score + h.intensity else score) a =
      a + pointScore dist p hotspots := by
  intro hotspots
  induction hotspots with
  | nil => intro a; simp [pointScore]
  | cons h rest ih =>
    intro a
    rw [List.foldl_cons, ih]
    simp only [pointScore, List.map_cons, List.sum_cons]
    by_cases hc : dist p ⟨h.lat, h.lng⟩ < h.radius
    · rw [if_pos hc, if_pos hc]; ring
    · rw [if_neg hc, if_neg hc]; ring

theorem scorePath_eq_sum (dist : RoutePoint → RoutePoint → ℝ)
    (path : List RoutePoint) (hotspots : List Hotspot) :
    scorePath dist path hotspots =
      (path.map (fun p => pointScore dist p hotspots)).sum := by
  rw [scorePath]
  have : ∀ (ps : List RoutePoint) (a : ℝ),
      ps.foldl (fun score p =>
        hotspots.foldl (fun score h =>
          if dist p ⟨h.lat, h.lng⟩ < h.radius then score + h.intensity else score)
          score) a =
        a + (ps.map (fun p => pointScore dist p hotspots)).sum := by
    intro ps
    induction ps with
    | nil => intro a; simp
    | cons p rest ih =>
      intro a
      rw [List.foldl_cons, inner_foldl_eq, ih]
      simp only [List.map_cons, List.sum_cons]
      ring
  rw [this]
  ring

theorem pointScore_nonneg (dist : RoutePoint → RoutePoint → ℝ) (p : RoutePoint)
    {hotspots : List Hotspot} (hpos : ∀ h ∈ hotspots, 0 ≤ h.intensity) :
    0 ≤ pointScore dist p hotspots := by
  apply List.sum_nonneg
  intro x hx
  rw [List.mem_map] at hx
  obtain ⟨h, hh, rfl⟩ := hx
  by_cases hc : dist p ⟨h.lat, h.lng⟩ < h.radius
  · rw [if_pos hc]; exact hpos h hh
  · rw [if_neg hc]

/-- C7: with non-negative intensities the route risk score `scorePath` is
non-negative, appending a (non-negatively weighted) hotspot can only raise
it, and raising the intensity of one hotspot (same center and radius) can
only raise it — all for a fixed path and an arbitrary distance function
standing for `google.maps.geometry.spherical.computeDistanceBetween`. -/
theorem C7_scorePath_nonneg_monotone :
    ∀ (dist : RoutePoint → RoutePoint → ℝ) (path : List RoutePoint)
      (hotspots : List Hotspot),
    (∀ h ∈ hotspots, 0 ≤ h.intensity) →
    0 ≤ scorePath dist path hotspots ∧
    (∀ hnew : Hotspot, 0 ≤ hnew.intensity →
      scorePath dist path hotspots ≤ scorePath dist path (hotspots ++ [hnew])) ∧
    (∀ (pre post : List Hotspot) (h h' : Hotspot),
      hotspots = pre ++ h :: post →
      h'.lat = h.lat → h'.lng = h.lng → h'.radius = h.radius →
      h.intensity ≤ h'.intensity →
      scorePath dist path hotspots ≤ scorePath dist path (pre ++ h' :: post)) := by
  intro dist path hotspots hpos
  refine ⟨?_, ?_, ?_⟩
  · rw [scorePath_eq_sum]
    apply List.sum_nonneg
    intro x hx
    rw [List.mem_map] at hx
    obtain ⟨p, hp, rfl⟩ := hx
    exact pointScore_nonneg dist p hpos
  · intro hnew hnewpos
    rw [scorePath_eq_sum, scorePath_eq_sum]
    apply List.sum_le_sum
    intro p hp
    simp only [pointScore, List.map_append, List.sum_append, List.map_cons,
      List.sum_cons, List.map_nil, List.sum_nil]
    have : 0 ≤ if dist p ⟨hnew.lat, hnew.lng⟩ < hnew.radius then hnew.intensity else 0 := by
      by_cases hc : dist p ⟨hnew.lat, hnew.lng⟩ < hnew.radius
      · rw [if_pos hc]; exact hnewpos
      · rw [if_neg hc]
    linarith
  · intro pre post h h' hsplit hlat hlng hrad hint
    subst hsplit
    rw [scorePath_eq_sum, scorePath_eq_sum]
    apply List.sum_le_sum
    intro p hp
    simp only [pointScore, List.map_append, List.sum_append, List.map_cons,
      List.sum_cons]
    have : (if dist p ⟨h.lat, h.lng⟩ < h.radius then h.intensity else 0) ≤
        (if dist p ⟨h'.lat, h'.lng⟩ < h'.radius then h'.intensity else 0) := by
      rw [hlat, hlng, hrad]
      by_cases hc : dist p ⟨h.lat, h.lng⟩ < h.radius
      · rw [if_pos hc, if_pos hc]; exact hint
      · rw [if_neg hc, if_neg hc]
    linarith

/-- Witness for `C7_scorePath_nonneg_monotone` on a one-point path and a
single unit-intensity hotspot, with the zero distance function. -/
theorem C7_scorePath_nonneg_monotone_witness :
    (∀ h ∈ ([⟨0, 0, 1, 2⟩] : List Hotspot), 0 ≤ h.intensity) ∧
      0 ≤ scorePath (fun _ _ => 0) [⟨0, 0⟩] [⟨0, 0, 1, 2⟩] := by
  have hpos : ∀ h ∈ ([⟨0, 0, 1, 2⟩] : List Hotspot), 0 ≤ h.intensity := by
    intro h hh
    rw [List.mem_singleton] at hh
    subst hh
    norm_num
  exact ⟨hpos, (C7_scorePath_nonneg_monotone (fun _ _ => 0) [⟨0, 0⟩] _ hpos).1⟩

/-! ### The backend tiered penalty (claim C4) -/

/-- C4: the backend point penalty is exactly the sum, over the hotspots
whose center lies within their radius of the point (`distance <= radius`),
of the four-band tier penalty of their intensity; overlapping hotspots
contribute additively.  (`risk_penalty_for_point` is modelled from the
snippet quoted in the architecture document, the backend source not being
among the files.) -/
theorem C4_risk_penalty_tiered_sum :
    ∀ (haversine : ℝ → ℝ → ℝ → ℝ → ℝ) (lat lng : ℝ) (hotspots : List PyHotspot),
    risk_penalty_for_point haversine lat lng hotspots =
      penaltyAt_spec haversine lat lng hotspots := by
  intro haversine lat lng hotspots
  have key : ∀ (hs : List PyHotspot) (a : ℝ),
      hs.foldl (fun penalty h =>
        if haversine lat lng h.lat h.lng ≤ h.radius.getD (150 + h.intensity * 0.8)
        then penalty + tierPenalty h.intensity else penalty) a =
      a + penaltyAt_spec haversine lat lng hs := by
    intro hs
    induction hs with
    | nil => intro a; simp [penaltyAt_spec]
    | cons h rest ih =>
      intro a
      rw [List.foldl_cons, ih]
      simp only [penaltyAt_spec, List.filter_cons]
      by_cases hc : haversine lat lng h.lat h.lng ≤ h.radius.getD (150 + h.intensity * 0.8)
      · rw [if_pos hc, if_pos (by simpa using hc)]
        simp only [List.map_cons, List.sum_cons]
        ring
      · rw [if_neg hc, if_neg (by simpa using hc)]
  rw [risk_penalty_for_point, key]
  ring

/-! ### `JSNum` operation lemmas -/

@[simp] theorem jadd_none_left (b : JSNum) : jadd none b = none := rfl

@[simp] theorem jadd_none_right (a : JSNum) : jadd a none = none := by
  cases a <;> rfl

@[simp] theorem jadd_some (x y : ℝ) : jadd (some x) (some y) = some (x + y) := rfl

@[simp] theorem jsub_none_left (b : JSNum) : jsub none b = none := rfl

@[simp] theorem jsub_none_right (a : JSNum) : jsub a none = none := by
  cases a <;> rfl

@[simp] theorem jsub_some (x y : ℝ) : jsub (some x) (some y) = some (x - y) := rfl

@[simp] theorem jmul_none_left (b : JSNum) : jmul none b = none := rfl

@[simp] theorem jmul_none_right (a : JSNum) : jmul a none = none := by
  cases a <;> rfl

@[simp] theorem jmul_some (x y : ℝ) : jmul (some x) (some y) = some (x * y) := rfl

@[simp] theorem jdiv_none_left (b : JSNum) : jdiv none b = none := rfl

@[simp] theorem jdiv_none_right (a : JSNum) : jdiv a none = none := by
  cases a <;> rfl

theorem jdiv_some {y : ℝ} (x : ℝ) (hy : y ≠ 0) :
    jdiv (some x) (some y) = some (x / y) := by
  simp [jdiv, hy]

@[simp] theorem jsin_none : jsin none = none := rfl

@[simp] theorem jsin_some (x : ℝ) : jsin (some x) = some (Real.sin x) := rfl

@[simp] theorem jcos_none : jcos none = none := rfl

@[simp] theorem jcos_some (x : ℝ) : jcos (some x) = some (Real.cos x) := rfl

@[simp] theorem jsqrt_none : jsqrt none = none := rfl

theorem jsqrt_some {x : ℝ} (h : 0 ≤ x) :
    jsqrt (some x) = some (Real.sqrt x) := by
  simp [jsqrt, not_lt.mpr h]

@[simp] theorem jatan2_none_left (b : JSNum) : jatan2 none b = none := rfl

@[simp] theorem jatan2_none_right (a : JSNum) : jatan2 a none = none := by
  cases a <;> rfl

@[simp] theorem jatan2_some (y x : ℝ) :
    jatan2 (some y) (some x) = some (atan2R y x) := rfl

@[simp] theorem not_jle_none_left (b : JSNum) : ¬ jle none b := by
  cases b <;> simp [jle]

@[simp] theorem not_jle_none_right (a : JSNum) : ¬ jle a none := by
  cases a <;> simp [jle]

theorem jle_some_iff {x y : ℝ} : jle (some x) (some y) ↔ x ≤ y := Iff.rfl

/-! ### `calculateDistance` evaluation -/

theorem calculateDistance_nan {lat1 lng1 lat2 lng2 : JSNum}
    (h : lat1 = none ∨ lng1 = none ∨ lat2 = none ∨ lng2 = none) :
    calculateDistance lat1 lng1 lat2 lng2 = none := by
  rcases h with h | h | h | h <;> subst h <;>
    simp [calculateDistance]

theorem calculateDistance_eval (lat1 lng1 lat2 lng2 : ℝ)
    (h0 : 0 ≤ havA lat1 lng1 lat2 lng2) (h1 : havA lat1 lng1 lat2 lng2 ≤ 1) :
    calculateDistance (some lat1) (some lng1) (some lat2) (some lng2) =
      some (havDist lat1 lng1 lat2 lng2) := by
  have e180 : (((180 : ℝ) = 0) = False) := eq_false (by norm_num)
  have e2 : (((2 : ℝ) = 0) = False) := eq_false (by norm_num)
  simp only [havA] at h0 h1
  simp only [calculateDistance, jsub_some, jmul_some, jdiv, jsin_some, jcos_some,
    jadd_some, jsqrt, jatan2_some, e180, e2, if_false]
  rw [if_neg (not_lt.mpr h0), if_neg (not_lt.mpr (by linarith))]
  simp only [jatan2_some, jmul_some, havDist, havA]

/-! ### Elementary bounds for `arctan`, `sin`, `cos` -/

theorem arctan_le_self {t : ℝ} (ht : 0 ≤ t) : Real.arctan t ≤ t := by
  rcases eq_or_lt_of_le ht with h | h
  · rw [← h, Real.arctan_zero]
  · have hpos : 0 < Real.arctan t := by
      have h0 := Real.arctan_strictMono h
      rwa [Real.arctan_zero] at h0
    have hlt : Real.arctan t < Real.pi / 2 := Real.arctan_lt_pi_div_two t
    have hx := Real.lt_tan hpos hlt
    rw [Real.tan_arctan] at hx
    exact hx.le

theorem cos_ge_one_sub_sq_half (y : ℝ) : 1 - y ^ 2 / 2 ≤ Real.cos y := by
  have hid : Real.cos y = 1 - 2 * Real.sin (y / 2) ^ 2 := by
    have h1 := Real.cos_two_mul (y / 2)
    have h2 := Real.sin_sq_add_cos_sq (y / 2)
    have h3 : 2 * (y / 2) = y := by ring
    rw [h3] at h1
    linarith
  rw [hid]
  have hs : Real.sin (y / 2) ^ 2 ≤ (y / 2) ^ 2 := by
    have habs := @Real.abs_sin_le_abs (y / 2)
    nlinarith [abs_nonneg (Real.sin (y / 2)), abs_nonneg (y / 2),
      sq_abs (Real.sin (y / 2)), sq_abs (y / 2)]
  nlinarith [hs]

theorem arctan_ge_half {t : ℝ} (h0 : 0 ≤ t) (h1 : t ≤ 1) :
    t / 2 ≤ Real.arctan t := by
  have hy0 : 0 ≤ t / 2 := by linarith
  have hy1 : t / 2 ≤ 1 / 2 := by linarith
  have hcos : (7 : ℝ) / 8 ≤ Real.cos (t / 2) := by
    have h := cos_ge_one_sub_sq_half (t / 2)
    nlinarith
  have hcos_pos : 0 < Real.cos (t / 2) := by linarith
  have hsin : Real.sin (t / 2) ≤ t / 2 := Real.sin_le hy0
  have htan : Real.tan (t / 2) ≤ t := by
    rw [Real.tan_eq_sin_div_cos]
    have hdiv : Real.sin (t / 2) / Real.cos (t / 2) ≤ (t / 2) / ((7 : ℝ) / 8) :=
      div_le_div hy0 hsin (by norm_num) hcos
    have heq : (t / 2) / ((7 : ℝ) / 8) = 4 * t / 7 := by ring
    rw [heq] at hdiv
    linarith
  have hy_lt : t / 2 < Real.pi / 2 := by
    have hpi := Real.pi_gt_d4
    linarith
  have hy_gt : -(Real.pi / 2) < t / 2 := by
    have hpi := Real.pi_pos
    linarith
  have hmono := Real.arctan_strictMono.monotone htan
  rwa [Real.arctan_tan hy_gt hy_lt] at hmono

/-! ### Haversine bounds for the concrete scenarios -/

theorem hav_self (l g : ℝ) : havA l g l g = 0 := by
  simp [havA]

theorem havDist_self (l g : ℝ) : havDist l g l g = 0 := by
  rw [havDist, hav_self, Real.sqrt_zero, sub_zero, Real.sqrt_one,
    atan2R_zero_pos one_pos]
  ring

set_option maxHeartbeats 1000000 in
theorem hav_close (l1 g1 l2 g2 : ℝ)
    (hl1 : |l1| ≤ 80) (hl2 : |l2| ≤ 80)
    (hdl : |l2 - l1| ≤ 1 / 2000) (hdg : |g2 - g1| ≤ 1 / 2000) :
    0 ≤ havA l1 g1 l2 g2 ∧ havA l1 g1 l2 g2 ≤ 1 ∧
      havDist l1 g1 l2 g2 ≤ 3 / 20 := by
  have hpiu : Real.pi < 3.1416 := Real.pi_lt_d4
  have hpip : 0 < Real.pi := Real.pi_pos
  simp only [havA, havDist]
  set u : ℝ := (l2 - l1) * Real.pi / 180 / 2 with hu_def
  set v : ℝ := (g2 - g1) * Real.pi / 180 / 2 with hv_def
  set c1 : ℝ := Real.cos (l1 * Real.pi / 180) with hc1_def
  set c2 : ℝ := Real.cos (l2 * Real.pi / 180) with hc2_def
  have habs_helper : ∀ x : ℝ, |x * Real.pi / 180 / 2| = |x| * Real.pi / 180 / 2 := by
    intro x
    rw [abs_div, abs_div, abs_mul, abs_of_pos hpip,
      abs_of_pos (show (0 : ℝ) < 180 by norm_num),
      abs_of_pos (show (0 : ℝ) < 2 by norm_num)]
  have hu_abs : |u| ≤ 1 / 200000 := by
    rw [hu_def, habs_helper]
    have hprod : |l2 - l1| * Real.pi ≤ (1 / 2000) * 3.1416 :=
      mul_le_mul hdl hpiu.le hpip.le (by norm_num)
    linarith
  have hv_abs : |v| ≤ 1 / 200000 := by
    rw [hv_def, habs_helper]
    have hprod : |g2 - g1| * Real.pi ≤ (1 / 2000) * 3.1416 :=
      mul_le_mul hdg hpiu.le hpip.le (by norm_num)
    linarith
  have hs1 : Real.sin u * Real.sin u ≤ (1 / 200000) * (1 / 200000) := by
    have hx1 : Real.sin u * Real.sin u ≤ |u| * |u| := by
      rw [← abs_mul_abs_self (Real.sin u)]
      exact mul_self_le_mul_self (abs_nonneg _) Real.abs_sin_le_abs
    have hx2 : |u| * |u| ≤ (1 / 200000) * (1 / 200000) :=
      mul_self_le_mul_self (abs_nonneg _) hu_abs
    linarith
  have hs2 : Real.sin v * Real.sin v ≤ (1 / 200000) * (1 / 200000) := by
    have hx1 : Real.sin v * Real.sin v ≤ |v| * |v| := by
      rw [← abs_mul_abs_self (Real.sin v)]
      exact mul_self_le_mul_self (abs_nonneg _) Real.abs_sin_le_abs
    have hx2 : |v| * |v| ≤ (1 / 200000) * (1 / 200000) :=
      mul_self_le_mul_self (abs_nonneg _) hv_abs
    linarith
  have hc1_pos : 0 < c1 := by
    rw [hc1_def]
    refine Real.cos_pos_of_mem_Ioo ⟨?_, ?_⟩
    · nlinarith [(abs_le.mp hl1).1, (abs_le.mp hl1).2, hpip]
    · nlinarith [(abs_le.mp hl1).1, (abs_le.mp hl1).2, hpip]
  have hc2_pos : 0 < c2 := by
    rw [hc2_def]
    refine Real.cos_pos_of_mem_Ioo ⟨?_, ?_⟩
    · nlinarith [(abs_le.mp hl2).1, (abs_le.mp hl2).2, hpip]
    · nlinarith [(abs_le.mp hl2).1, (abs_le.mp hl2).2, hpip]
  have hc1_le : c1 ≤ 1 := by rw [hc1_def]; exact Real.cos_le_one _
  have hc2_le : c2 ≤ 1 := by rw [hc2_def]; exact Real.cos_le_one _
  have hcc : c1 * c2 ≤ 1 := mul_le_one hc1_le hc2_pos.le hc2_le
  have hshape : c1 * c2 * Real.sin v * Real.sin v =
      (c1 * c2) * (Real.sin v * Real.sin v) := by ring
  have hterm2_nonneg : 0 ≤ c1 * c2 * Real.sin v * Real.sin v := by
    rw [hshape]
    exact mul_nonneg (mul_pos hc1_pos hc2_pos).le (mul_self_nonneg _)
  have hterm2_le : c1 * c2 * Real.sin v * Real.sin v ≤ Real.sin v * Real.sin v := by
    rw [hshape]
    exact mul_le_of_le_one_left (mul_self_nonneg _) hcc
  have hA0 : 0 ≤ Real.sin u * Real.sin u + c1 * c2 * Real.sin v * Real.sin v :=
    add_nonneg (mul_self_nonneg _) hterm2_nonneg
  have hA_le : Real.sin u * Real.sin u + c1 * c2 * Real.sin v * Real.sin v ≤
      (1 / 200000) * (1 / 200000) * 2 := by linarith
  refine ⟨hA0, by linarith, ?_⟩
  set A : ℝ := Real.sin u * Real.sin u + c1 * c2 * Real.sin v * Real.sin v with hA_def
  have hA1 : A < 1 := by rw [hA_def]; linarith
  have hsq_pos : 0 < Real.sqrt (1 - A) := Real.sqrt_pos.mpr (by linarith)
  rw [atan2R_pos_x hsq_pos]
  have hsA_le : Real.sqrt A ≤ 71 / 10000000 := by
    have hsq : A ≤ (71 / 10000000 : ℝ) ^ 2 := by
      have : ((71 : ℝ) / 10000000) ^ 2 = 5041 / 100000000000000 := by norm_num
      rw [this, hA_def]
      linarith
    calc Real.sqrt A ≤ Real.sqrt ((71 / 10000000 : ℝ) ^ 2) := Real.sqrt_le_sqrt hsq
      _ = 71 / 10000000 := Real.sqrt_sq (by norm_num)
  have h1A_ge : (7 : ℝ) / 10 ≤ Real.sqrt (1 - A) := by
    rw [show (7 : ℝ) / 10 = Real.sqrt ((7 / 10 : ℝ) ^ 2) from
      (Real.sqrt_sq (by norm_num)).symm]
    apply Real.sqrt_le_sqrt
    have : ((7 : ℝ) / 10) ^ 2 = 49 / 100 := by norm_num
    rw [this, hA_def]
    linarith
  have ht0 : 0 ≤ Real.sqrt A / Real.sqrt (1 - A) :=
    div_nonneg (Real.sqrt_nonneg _) (Real.sqrt_nonneg _)
  have ht_le : Real.sqrt A / Real.sqrt (1 - A) ≤ (71 / 10000000) / ((7 : ℝ) / 10) :=
    div_le_div (by norm_num) hsA_le (by norm_num) h1A_ge
  have harc : Real.arctan (Real.sqrt A / Real.sqrt (1 - A)) ≤
      (71 / 10000000) / ((7 : ℝ) / 10) := le_trans (arctan_le_self ht0) ht_le
  linarith

set_option maxHeartbeats 1000000 in
theorem hav_far (l1 g1 l2 g2 : ℝ)
    (hl1 : |l1| ≤ 80) (hl2 : |l2| ≤ 80)
    (hlo : 1 / 25 ≤ |l2 - l1|) (hhi : |l2 - l1| ≤ 1)
    (hdg : |g2 - g1| ≤ 1 / 2000) :
    0 ≤ havA l1 g1 l2 g2 ∧ havA l1 g1 l2 g2 ≤ 1 ∧
      3 / 20 < havDist l1 g1 l2 g2 := by
  have hpiu : Real.pi < 3.1416 := Real.pi_lt_d4
  have hpil : 3.1415 < Real.pi := Real.pi_gt_d4
  have hpip : 0 < Real.pi := Real.pi_pos
  simp only [havA, havDist]
  set u : ℝ := (l2 - l1) * Real.pi / 180 / 2 with hu_def
  set v : ℝ := (g2 - g1) * Real.pi / 180 / 2 with hv_def
  set c1 : ℝ := Real.cos (l1 * Real.pi / 180) with hc1_def
  set c2 : ℝ := Real.cos (l2 * Real.pi / 180) with hc2_def
  have habs_helper : ∀ x : ℝ, |x * Real.pi / 180 / 2| = |x| * Real.pi / 180 / 2 := by
    intro x
    rw [abs_div, abs_div, abs_mul, abs_of_pos hpip,
      abs_of_pos (show (0 : ℝ) < 180 by norm_num),
      abs_of_pos (show (0 : ℝ) < 2 by norm_num)]
  have hu_abs_le : |u| ≤ 1 / 100 := by
    rw [hu_def, habs_helper]
    have hprod : |l2 - l1| * Real.pi ≤ 1 * 3.1416 :=
      mul_le_mul hhi hpiu.le hpip.le (by norm_num)
    linarith
  have hu_abs_ge : 1 / 3000 ≤ |u| := by
    rw [hu_def, habs_helper]
    have hprod : (1 / 25) * 3.1415 ≤ |l2 - l1| * Real.pi :=
      mul_le_mul hlo hpil.le (by norm_num) (abs_nonneg _)
    linarith
  have hv_abs : |v| ≤ 1 / 200000 := by
    rw [hv_def, habs_helper]
    have hprod : |g2 - g1| * Real.pi ≤ (1 / 2000) * 3.1416 :=
      mul_le_mul hdg hpiu.le hpip.le (by norm_num)
    linarith
  have husin : 1 / 3100 ≤ Real.sin |u| := by
    have h1 : |u| - |u| ^ 3 / 4 ≤ Real.sin |u| :=
      (Real.sin_gt_sub_cube (by linarith) (by linarith)).le
    have h2 : |u| ^ 3 ≤ |u| * ((1 / 100) * (1 / 100)) := by
      nlinarith [abs_nonneg u, hu_abs_le,
        mul_self_le_mul_self (abs_nonneg u) hu_abs_le]
    linarith
  have hsin_sq_eq : Real.sin u * Real.sin u = Real.sin |u| * Real.sin |u| := by
    rcases abs_cases u with ⟨h, _⟩ | ⟨h, _⟩
    · rw [h]
    · rw [h, Real.sin_neg]; ring
  have hs1_ge : (1 / 3100) * (1 / 3100) ≤ Real.sin u * Real.sin u := by
    rw [hsin_sq_eq]
    exact mul_self_le_mul_self (by norm_num) husin
  have hs1_le : Real.sin u * Real.sin u ≤ (1 / 100) * (1 / 100) := by
    have hx1 : Real.sin u * Real.sin u ≤ |u| * |u| := by
      rw [← abs_mul_abs_self (Real.sin u)]
      exact mul_self_le_mul_self (abs_nonneg _) Real.abs_sin_le_abs
    have hx2 : |u| * |u| ≤ (1 / 100) * (1 / 100) :=
      mul_self_le_mul_self (abs_nonneg _) hu_abs_le
    linarith
  have hs2 : Real.sin v * Real.sin v ≤ (1 / 200000) * (1 / 200000) := by
    have hx1 : Real.sin v * Real.sin v ≤ |v| * |v| := by
      rw [← abs_mul_abs_self (Real.sin v)]
      exact mul_self_le_mul_self (abs_nonneg _) Real.abs_sin_le_abs
    have hx2 : |v| * |v| ≤ (1 / 200000) * (1 / 200000) :=
      mul_self_le_mul_self (abs_nonneg _) hv_abs
    linarith
  have hc1_pos : 0 < c1 := by
    rw [hc1_def]
    refine Real.cos_pos_of_mem_Ioo ⟨?_, ?_⟩
    · nlinarith [(abs_le.mp hl1).1, (abs_le.mp hl1).2, hpip]
    · nlinarith [(abs_le.mp hl1).1, (abs_le.mp hl1).2, hpip]
  have hc2_pos : 0 < c2 := by
    rw [hc2_def]
    refine Real.cos_pos_of_mem_Ioo ⟨?_, ?_⟩
    · nlinarith [(abs_le.mp hl2).1, (abs_le.mp hl2).2, hpip]
    · nlinarith [(abs_le.mp hl2).1, (abs_le.mp hl2).2, hpip]
  have hc1_le : c1 ≤ 1 := by rw [hc1_def]; exact Real.cos_le_one _
  have hc2_le : c2 ≤ 1 := by rw [hc2_def]; exact Real.cos_le_one _
  have hcc : c1 * c2 ≤ 1 := mul_le_one hc1_le hc2_pos.le hc2_le
  have hshape : c1 * c2 * Real.sin v * Real.sin v =
      (c1 * c2) * (Real.sin v * Real.sin v) := by ring
  have hterm2_nonneg : 0 ≤ c1 * c2 * Real.sin v * Real.sin v := by
    rw [hshape]
    exact mul_nonneg (mul_pos hc1_pos hc2_pos).le (mul_self_nonneg _)
  have hterm2_le : c1 * c2 * Real.sin v * Real.sin v ≤ Real.sin v * Real.sin v := by
    rw [hshape]
    exact mul_le_of_le_one_left (mul_self_nonneg _) hcc
  have hA0 : 0 ≤ Real.sin u * Real.sin u + c1 * c2 * Real.sin v * Real.sin v :=
    add_nonneg (mul_self_nonneg _) hterm2_nonneg
  have hA_le : Real.sin u * Real.sin u + c1 * c2 * Real.sin v * Real.sin v ≤
      2 / 10000 := by linarith
  have hA_ge : (1 / 3100) * (1 / 3100) ≤
      Real.sin u * Real.sin u + c1 * c2 * Real.sin v * Real.sin v := by linarith
  refine ⟨hA0, by linarith, ?_⟩
  set A : ℝ := Real.sin u * Real.sin u + c1 * c2 * Real.sin v * Real.sin v with hA_def
  have hsq_pos : 0 < Real.sqrt (1 - A) := Real.sqrt_pos.mpr (by linarith)
  rw [atan2R_pos_x hsq_pos]
  have hsA_ge : 1 / 3100 ≤ Real.sqrt A := by
    apply (Real.le_sqrt (by norm_num) (by linarith)).mpr
    have : ((1 : ℝ) / 3100) ^ 2 = (1 / 3100) * (1 / 3100) := by ring
    rw [this]
    linarith
  have hsA_le : Real.sqrt A ≤ 15 / 1000 := by
    have hsq : A ≤ (15 / 1000 : ℝ) ^ 2 := by
      have : ((15 : ℝ) / 1000) ^ 2 = 225 / 1000000 := by norm_num
      rw [this]
      linarith
    calc Real.sqrt A ≤ Real.sqrt ((15 / 1000 : ℝ) ^ 2) := Real.sqrt_le_sqrt hsq
      _ = 15 / 1000 := Real.sqrt_sq (by norm_num)
  have h1A_le_one : Real.sqrt (1 - A) ≤ 1 := by
    calc Real.sqrt (1 - A) ≤ Real.sqrt 1 := Real.sqrt_le_sqrt (by linarith)
      _ = 1 := Real.sqrt_one
  have h1A_ge : (9 : ℝ) / 10 ≤ Real.sqrt (1 - A) := by
    apply (Real.le_sqrt (by norm_num) (by linarith)).mpr
    have : ((9 : ℝ) / 10) ^ 2 = 81 / 100 := by norm_num
    rw [this]
    linarith
  have ht0 : 0 ≤ Real.sqrt A / Real.sqrt (1 - A) :=
    div_nonneg (Real.sqrt_nonneg _) (Real.sqrt_nonneg _)
  have ht_ge : 1 / 3100 ≤ Real.sqrt A / Real.sqrt (1 - A) := by
    apply (le_div_iff hsq_pos).mpr
    nlinarith [Real.sqrt_nonneg (1 - A)]
  have ht_le_one : Real.sqrt A / Real.sqrt (1 - A) ≤ 1 := by
    apply (div_le_one hsq_pos).mpr
    linarith
  have harc : (Real.sqrt A / Real.sqrt (1 - A)) / 2 ≤
      Real.arctan (Real.sqrt A / Real.sqrt (1 - A)) :=
    arctan_ge_half ht0 ht_le_one
  linarith

/-! ### `nearB` on the scenario incidents -/

theorem nearB_iff (epsilon : JSNum) (a b : CrimeIncident) :
    nearB epsilon a b = true ↔
      jle (calculateDistance a.latitude a.longitude b.latitude b.longitude)
        epsilon := by
  classical
  rw [nearB, decide_eq_true_eq]

theorem nearB_nan_center {epsilon : JSNum} {a : CrimeIncident} (b : CrimeIncident)
    (h : a.latitude = none ∨ a.longitude = none) : nearB epsilon a b = false := by
  classical
  rw [nearB]
  apply decide_eq_false
  rw [calculateDistance_nan (by tauto)]
  exact not_jle_none_left _

theorem nearB_nan_other {epsilon : JSNum} (a : CrimeIncident) {b : CrimeIncident}
    (h : b.latitude = none ∨ b.longitude = none) : nearB epsilon a b = false := by
  classical
  rw [nearB]
  apply decide_eq_false
  rw [calculateDistance_nan (by tauto)]
  exact not_jle_none_left _

theorem nearB_close_eq_true (i1 i2 : String) {l1 g1 l2 g2 eps : ℝ}
    (hl1a : -80 ≤ l1) (hl1b : l1 ≤ 80) (hl2a : -80 ≤ l2) (hl2b : l2 ≤ 80)
    (hdla : -(1 / 2000) ≤ l2 - l1) (hdlb : l2 - l1 ≤ 1 / 2000)
    (hdga : -(1 / 2000) ≤ g2 - g1) (hdgb : g2 - g1 ≤ 1 / 2000)
    (heps : 3 / 20 ≤ eps) :
    nearB (some eps) (mkScenIncident i1 l1 g1) (mkScenIncident i2 l2 g2) = true := by
  obtain ⟨hA0, hA1, hD⟩ := hav_close l1 g1 l2 g2
    (abs_le.mpr ⟨hl1a, hl1b⟩) (abs_le.mpr ⟨hl2a, hl2b⟩)
    (abs_le.mpr ⟨hdla, hdlb⟩) (abs_le.mpr ⟨hdga, hdgb⟩)
  rw [nearB_iff]
  simp only [mkScenIncident]
  rw [calculateDistance_eval _ _ _ _ hA0 hA1]
  exact jle_some_iff.mpr (le_trans hD heps)

theorem nearB_far_eq_false (i1 i2 : String) {l1 g1 l2 g2 eps : ℝ}
    (hl1a : -80 ≤ l1) (hl1b : l1 ≤ 80) (hl2a : -80 ≤ l2) (hl2b : l2 ≤ 80)
    (hlo : 1 / 25 ≤ l2 - l1 ∨ 1 / 25 ≤ l1 - l2)
    (hhia : -1 ≤ l2 - l1) (hhib : l2 - l1 ≤ 1)
    (hdga : -(1 / 2000) ≤ g2 - g1) (hdgb : g2 - g1 ≤ 1 / 2000)
    (heps : eps ≤ 3 / 20) :
    nearB (some eps) (mkScenIncident i1 l1 g1) (mkScenIncident i2 l2 g2) = false := by
  classical
  have hlo' : 1 / 25 ≤ |l2 - l1| := by
    rcases hlo with h | h
    · exact le_trans h (le_abs_self _)
    · rw [abs_sub_comm]
      exact le_trans h (le_abs_self _)
  obtain ⟨hA0, hA1, hD⟩ := hav_far l1 g1 l2 g2
    (abs_le.mpr ⟨hl1a, hl1b⟩) (abs_le.mpr ⟨hl2a, hl2b⟩)
    hlo' (abs_le.mpr ⟨hhia, hhib⟩) (abs_le.mpr ⟨hdga, hdgb⟩)
  rw [nearB]
  apply decide_eq_false
  simp only [mkScenIncident]
  rw [calculateDistance_eval _ _ _ _ hA0 hA1]
  intro hle
  have := jle_some_iff.mp hle
  linarith

theorem nearB_self_eq_true (i1 i2 : String) {l g eps : ℝ} (heps : 0 ≤ eps) :
    nearB (some eps) (mkScenIncident i1 l g) (mkScenIncident i2 l g) = true := by
  rw [nearB_iff]
  simp only [mkScenIncident]
  rw [calculateDistance_eval l g l g (le_of_eq (hav_self l g).symm)
    (by rw [hav_self]; norm_num), havDist_self]
  exact jle_some_iff.mpr heps

/-! Field values of the scenario incidents. -/

theorem idA : incScenA.id = "a" := rfl
theorem idB : incScenB.id = "b" := rfl
theorem idC : incScenC.id = "c" := rfl
theorem idD : incScenD.id = "d" := rfl
theorem latA : incScenA.latitude = some 12.971 := rfl
theorem latB : incScenB.latitude = some 12.9712 := rfl
theorem latC : incScenC.latitude = some 12.9709 := rfl
theorem lngA : incScenA.longitude = some 77.594 := rfl
theorem lngB : incScenB.longitude = some 77.5942 := rfl
theorem lngC : incScenC.longitude = some 77.5938 := rfl

/-! The 16 pairwise neighbourhood decisions at `eps = 0.15` km (150 m). -/

theorem nAA : nearB (some 0.15) incScenA incScenA = true :=
  nearB_close_eq_true "a" "a" (by norm_num) (by norm_num) (by norm_num)
    (by norm_num) (by norm_num) (by norm_num) (by norm_num) (by norm_num)
    (by norm_num)

theorem nAB : nearB (some 0.15) incScenA incScenB = true :=
  nearB_close_eq_true "a" "b" (by norm_num) (by norm_num) (by norm_num)
    (by norm_num) (by norm_num) (by norm_num) (by norm_num) (by norm_num)
    (by norm_num)

theorem nAC : nearB (some 0.15) incScenA incScenC = true :=
  nearB_close_eq_true "a" "c" (by norm_num) (by norm_num) (by norm_num)
    (by norm_num) (by norm_num) (by norm_num) (by norm_num) (by norm_num)
    (by norm_num)

theorem nBA : nearB (some 0.15) incScenB incScenA = true :=
  nearB_close_eq_true "b" "a" (by norm_num) (by norm_num) (by norm_num)
    (by norm_num) (by norm_num) (by norm_num) (by norm_num) (by norm_num)
    (by norm_num)

theorem nBB : nearB (some 0.15) incScenB incScenB = true :=
  nearB_close_eq_true "b" "b" (by norm_num) (by norm_num) (by norm_num)
    (by norm_num) (by norm_num) (by norm_num) (by norm_num) (by norm_num)
    (by norm_num)

theorem nBC : nearB (some 0.15) incScenB incScenC = true :=
  nearB_close_eq_true "b" "c" (by norm_num) (by norm_num) (by norm_num)
    (by norm_num) (by norm_num) (by norm_num) (by norm_num) (by norm_num)
    (by norm_num)

theorem nCA : nearB (some 0.15) incScenC incScenA = true :=
  nearB_close_eq_true "c" "a" (by norm_num) (by norm_num) (by norm_num)
    (by norm_num) (by norm_num) (by norm_num) (by norm_num) (by norm_num)
    (by norm_num)

theorem nCB : nearB (some 0.15) incScenC incScenB = true :=
  nearB_close_eq_true "c" "b" (by norm_num) (by norm_num) (by norm_num)
    (by norm_num) (by norm_num) (by norm_num) (by norm_num) (by norm_num)
    (by norm_num)

theorem nCC : nearB (some 0.15) incScenC incScenC = true :=
  nearB_close_eq_true "c" "c" (by norm_num) (by norm_num) (by norm_num)
    (by norm_num) (by norm_num) (by norm_num) (by norm_num) (by norm_num)
    (by norm_num)

theorem nDD : nearB (some 0.15) incScenD incScenD = true :=
  nearB_self_eq_true "d" "d" (by norm_num)

theorem nAD : nearB (some 0.15) incScenA incScenD = false :=
  nearB_far_eq_false "a" "d" (by norm_num) (by norm_num) (by norm_num)
    (by norm_num) (Or.inl (by norm_num)) (by norm_num) (by norm_num)
    (by norm_num) (by norm_num) (by norm_num)

theorem nBD : nearB (some 0.15) incScenB incScenD = false :=
  nearB_far_eq_false "b" "d" (by norm_num) (by norm_num) (by norm_num)
    (by norm_num) (Or.inl (by norm_num)) (by norm_num) (by norm_num)
    (by norm_num) (by norm_num) (by norm_num)

theorem nCD : nearB (some 0.15) incScenC incScenD = false :=
  nearB_far_eq_false "c" "d" (by norm_num) (by norm_num) (by norm_num)
    (by norm_num) (Or.inl (by norm_num)) (by norm_num) (by norm_num)
    (by norm_num) (by norm_num) (by norm_num)

theorem nDA : nearB (some 0.15) incScenD incScenA = false :=
  nearB_far_eq_false "d" "a" (by norm_num) (by norm_num) (by norm_num)
    (by norm_num) (Or.inr (by norm_num)) (by norm_num) (by norm_num)
    (by norm_num) (by norm_num) (by norm_num)

theorem nDB : nearB (some 0.15) incScenD incScenB = false :=
  nearB_far_eq_false "d" "b" (by norm_num) (by norm_num) (by norm_num)
    (by norm_num) (Or.inr (by norm_num)) (by norm_num) (by norm_num)
    (by norm_num) (by norm_num) (by norm_num)

theorem nDC : nearB (some 0.15) incScenD incScenC = false :=
  nearB_far_eq_false "d" "c" (by norm_num) (by norm_num) (by norm_num)
    (by norm_num) (Or.inr (by norm_num)) (by norm_num) (by norm_num)
    (by norm_num) (by norm_num) (by norm_num)

/-- C3: on the three incidents at `(12.971, 77.594)`, `(12.9712, 77.5942)`,
`(12.9709, 77.5938)` with `eps = 0.15` km (150 m) and `minPoints = 3` the
clusterer produces exactly one cluster containing exactly these three
incidents, centred within `0.001°` of `(12.9710, 77.5940)`; adding a fourth
incident 5 km away (`incScenD`, 0.045° of latitude north) still yields
exactly that one cluster, the fourth incident remaining unclustered. -/
theorem C3_dbscan_concrete_scenario :
    ∃ m1 m2 : ℝ,
      performDBSCAN [incScenA, incScenB, incScenC] (some 0.15) 3 =
        [{ lat := some m1, lng := some m2,
           incidents := [incScenA, incScenB, incScenC] }] ∧
      |m1 - 12.9710| ≤ 1 / 1000 ∧ |m2 - 77.5940| ≤ 1 / 1000 ∧
      performDBSCAN [incScenA, incScenB, incScenC, incScenD] (some 0.15) 3 =
        [{ lat := some m1, lng := some m2,
           incidents := [incScenA, incScenB, incScenC] }] := by
  refine ⟨(12.971 + 12.9712 + 12.9709) / 3, (77.594 + 77.5942 + 77.5938) / 3,
    ?_, ?_, ?_, ?_⟩
  · simp [performDBSCAN, dbscanFold, bfsExpand, pushUnvisited, nAA, nAB, nAC,
      nBA, nBB, nBC, nCA, nCB, nCC, idA, idB, idC, latA, latB, latC,
      lngA, lngB, lngC, jdiv_some, clusterAvgLat, clusterAvgLng]
  · have h : (12.971 + 12.9712 + 12.9709 : ℝ) / 3 - 12.9710 = 1 / 30000 := by
      norm_num
    rw [h, abs_of_pos (by norm_num)]
    norm_num
  · have h : (77.594 + 77.5942 + 77.5938 : ℝ) / 3 - 77.5940 = 0 := by norm_num
    rw [h, abs_zero]
    norm_num
  · simp [performDBSCAN, dbscanFold, bfsExpand, pushUnvisited, nAA, nAB, nAC,
      nAD, nBA, nBB, nBC, nBD, nCA, nCB, nCC, nCD, nDA, nDB, nDC, nDD,
      idA, idB, idC, idD, latA, latB, latC, lngA, lngB, lngC, jdiv_some,
      clusterAvgLat, clusterAvgLng]

/-! ### Out-of-range coordinates are clustered (claim C6) -/

theorem nBad (i j : String) : nearB (some 0.5) (badInc i) (badInc j) = true :=
  nearB_self_eq_true i j (by norm_num)

theorem idBad (i : String) : (badInc i).id = i := rfl

theorem latBad (i : String) : (badInc i).latitude = some 100 := rfl

theorem lngBad (i : String) : (badInc i).longitude = some 77.594 := rfl

/-! ### Structural invariants of the clusterer -/

theorem pushUnvisited_subset : ∀ (ns : List CrimeIncident) (v : List String),
    ∀ x ∈ (pushUnvisited ns v).2, x ∈ ns := by
  intro ns
  induction ns with
  | nil => intro v x hx; simp [pushUnvisited] at hx
  | cons n ns ih =>
    intro v x hx
    rw [pushUnvisited] at hx
    by_cases hv : n.id ∈ v
    · rw [if_pos hv] at hx
      exact List.mem_cons_of_mem _ (ih v x hx)
    · rw [if_neg hv] at hx
      rcases List.mem_cons.mp hx with h | h
      · exact h ▸ List.mem_cons_self _ _
      · exact List.mem_cons_of_mem _ (ih _ x h)

section BfsEquations

variable (nbr : CrimeIncident → CrimeIncident → Bool)
  (incidents : List CrimeIncident) (minPoints : ℕ)

theorem bfsExpand_nil (v c : List String) (acc : List CrimeIncident) :
    bfsExpand nbr incidents minPoints [] v c acc = (acc, v, c) := by
  rw [bfsExpand]

theorem bfsExpand_cons_clustered {current : CrimeIncident}
    (rest : List CrimeIncident) (v : List String) {c : List String}
    (acc : List CrimeIncident) (h : current.id ∈ c) :
    bfsExpand nbr incidents minPoints (current :: rest) v c acc =
      bfsExpand nbr incidents minPoints rest v c acc := by
  rw [bfsExpand, if_pos h]

theorem bfsExpand_cons_dense {current : CrimeIncident}
    (rest : List CrimeIncident) (v : List String) {c : List String}
    (acc : List CrimeIncident) (h : current.id ∉ c)
    (hlen : minPoints ≤ (incidents.filter (fun o => nbr current o)).length) :
    bfsExpand nbr incidents minPoints (current :: rest) v c acc =
      bfsExpand nbr incidents minPoints
        (rest ++ (pushUnvisited (incidents.filter (fun o => nbr current o)) v).2)
        (pushUnvisited (incidents.filter (fun o => nbr current o)) v).1
        (current.id :: c) (acc ++ [current]) := by
  rw [bfsExpand, if_neg h, if_pos hlen]

theorem bfsExpand_cons_sparse {current : CrimeIncident}
    (rest : List CrimeIncident) (v : List String) {c : List String}
    (acc : List CrimeIncident) (h : current.id ∉ c)
    (hlen : ¬ minPoints ≤ (incidents.filter (fun o => nbr current o)).length) :
    bfsExpand nbr incidents minPoints (current :: rest) v c acc =
      bfsExpand nbr incidents minPoints rest v (current.id :: c)
        (acc ++ [current]) := by
  rw [bfsExpand, if_neg h, if_neg hlen]

end BfsEquations

theorem bfsExpand_acc_mem (nbr : CrimeIncident → CrimeIncident → Bool)
    (incidents : List CrimeIncident) (minPoints : ℕ)
    (P : CrimeIncident → Prop) (hP : ∀ c x, nbr c x = true → P x) :
    ∀ (queue : List CrimeIncident) (visited clustered : List String)
      (acc : List CrimeIncident),
    (∀ x ∈ queue, P x) → (∀ x ∈ acc, P x) →
    ∀ x ∈ (bfsExpand nbr incidents minPoints queue visited clustered acc).1, P x := by
  intro queue visited clustered acc
  induction queue, visited, clustered, acc using bfsExpand.induct nbr incidents minPoints with
  | case1 v c acc =>
    intro _ hacc x hx
    rw [bfsExpand_nil] at hx
    exact hacc x hx
  | case2 current rest v c acc hmem ih =>
    intro hq hacc
    rw [bfsExpand_cons_clustered nbr incidents minPoints rest v acc hmem]
    exact ih (fun x hx => hq x (List.mem_cons_of_mem _ hx)) hacc
  | case3 current rest v c acc hmem hc2 ha2 hcn hlen hr2 ih =>
    intro hq hacc
    rw [bfsExpand_cons_dense nbr incidents minPoints rest v acc hmem hlen]
    apply ih
    · intro x hx
      rcases List.mem_append.mp hx with h | h
      · exact hq x (List.mem_cons_of_mem _ h)
      · have hxn := pushUnvisited_subset _ _ x h
        have hxf := List.mem_filter.mp hxn
        exact hP current x hxf.2
    · intro x hx
      rcases List.mem_append.mp hx with h | h
      · exact hacc x h
      · rw [List.mem_singleton] at h
        exact h ▸ hq current (List.mem_cons_self _ _)
  | case4 current rest v c acc hmem hc2 ha2 hcn hlen ih =>
    intro hq hacc
    rw [bfsExpand_cons_sparse nbr incidents minPoints rest v acc hmem hlen]
    apply ih
    · intro x hx
      exact hq x (List.mem_cons_of_mem _ hx)
    · intro x hx
      rcases List.mem_append.mp hx with h | h
      · exact hacc x h
      · rw [List.mem_singleton] at h
        exact h ▸ hq current (List.mem_cons_self _ _)

theorem bfsExpand_clustered_spec (nbr : CrimeIncident → CrimeIncident → Bool)
    (incidents : List CrimeIncident) (minPoints : ℕ) :
    ∀ (queue : List CrimeIncident) (visited clustered : List String)
      (acc : List CrimeIncident),
    ∃ new : List CrimeIncident,
      (bfsExpand nbr incidents minPoints queue visited clustered acc).1 =
        acc ++ new ∧
      (new.map (·.id)).Nodup ∧
      (∀ s ∈ new.map (·.id), s ∉ clustered) ∧
      (∀ s, s ∈ (bfsExpand nbr incidents minPoints queue visited clustered acc).2.2 ↔
        s ∈ clustered ∨ s ∈ new.map (·.id)) := by
  intro queue visited clustered acc
  induction queue, visited, clustered, acc using bfsExpand.induct nbr incidents minPoints with
  | case1 v c acc =>
    refine ⟨[], ?_, ?_, ?_, ?_⟩ <;> simp [bfsExpand_nil]
  | case2 current rest v c acc hmem ih =>
    rw [bfsExpand_cons_clustered nbr incidents minPoints rest v acc hmem]
    exact ih
  | case3 current rest v c acc hmem hc2 ha2 hcn hlen hr2 ih =>
    rw [bfsExpand_cons_dense nbr incidents minPoints rest v acc hmem hlen]
    obtain ⟨new, hacc, hnd, hnotc, hiff⟩ := ih
    refine ⟨current :: new, ?_, ?_, ?_, ?_⟩
    · rw [hacc, List.append_assoc, List.singleton_append]
    · rw [List.map_cons, List.nodup_cons]
      constructor
      · intro hin
        exact hnotc _ hin (List.mem_cons_self _ _)
      · exact hnd
    · intro s hs
      rw [List.map_cons, List.mem_cons] at hs
      rcases hs with h | h
      · exact h ▸ hmem
      · intro hc
        exact hnotc s h (List.mem_cons_of_mem _ hc)
    · intro s
      rw [hiff s, List.map_cons, List.mem_cons, List.mem_cons]
      tauto
  | case4 current rest v c acc hmem hc2 ha2 hcn hlen ih =>
    rw [bfsExpand_cons_sparse nbr incidents minPoints rest v acc hmem hlen]
    obtain ⟨new, hacc, hnd, hnotc, hiff⟩ := ih
    refine ⟨current :: new, ?_, ?_, ?_, ?_⟩
    · rw [hacc, List.append_assoc, List.singleton_append]
    · rw [List.map_cons, List.nodup_cons]
      constructor
      · intro hin
        exact hnotc _ hin (List.mem_cons_self _ _)
      · exact hnd
    · intro s hs
      rw [List.map_cons, List.mem_cons] at hs
      rcases hs with h | h
      · exact h ▸ hmem
      · intro hc
        exact hnotc s h (List.mem_cons_of_mem _ hc)
    · intro s
      rw [hiff s, List.map_cons, List.mem_cons, List.mem_cons]
      tauto

theorem dbscanFold_spec (nbr : CrimeIncident → CrimeIncident → Bool)
    (incidents : List CrimeIncident) (minPoints : ℕ) :
    ∀ (rest : List CrimeIncident) (visited clustered : List String)
      (clusters : List ClusterPoint),
    ((clusters.flatMap (·.incidents)).map (·.id)).Nodup →
    (∀ s ∈ (clusters.flatMap (·.incidents)).map (·.id), s ∈ clustered) →
    (∀ c ∈ clusters, ClusterOK nbr c) →
    (((dbscanFold nbr incidents minPoints rest visited clustered clusters).flatMap
        (·.incidents)).map (·.id)).Nodup ∧
    (∀ c ∈ dbscanFold nbr incidents minPoints rest visited clustered clusters,
      ClusterOK nbr c) := by
  intro rest
  induction rest with
  | nil =>
    intro v c cl h1 h2 h3
    rw [dbscanFold]
    exact ⟨h1, h3⟩
  | cons incident rest ih =>
    intro v c cl h1 h2 h3
    by_cases hv : incident.id ∈ v
    · rw [dbscanFold, if_pos hv]
      exact ih v c cl h1 h2 h3
    · by_cases hlen : minPoints ≤
        (incidents.filter (fun other => nbr incident other)).length
      · by_cases hpos : 0 < (bfsExpand nbr incidents minPoints
          (incidents.filter (fun other => nbr incident other))
          (incident.id :: v) c []).1.length
        · rw [show dbscanFold nbr incidents minPoints (incident :: rest) v c cl =
            dbscanFold nbr incidents minPoints rest
              (bfsExpand nbr incidents minPoints
                (incidents.filter (fun other => nbr incident other))
                (incident.id :: v) c []).2.1
              (bfsExpand nbr incidents minPoints
                (incidents.filter (fun other => nbr incident other))
                (incident.id :: v) c []).2.2
              (cl ++
                [{ lat := clusterAvgLat (bfsExpand nbr incidents minPoints
                    (incidents.filter (fun other => nbr incident other))
                    (incident.id :: v) c []).1,
                   lng := clusterAvgLng (bfsExpand nbr incidents minPoints
                    (incidents.filter (fun other => nbr incident other))
                    (incident.id :: v) c []).1,
                   incidents := (bfsExpand nbr incidents minPoints
                    (incidents.filter (fun other => nbr incident other))
                    (incident.id :: v) c []).1 }]) from by
            rw [dbscanFold, if_neg hv]
            simp only [if_pos hlen, if_pos hpos]]
          obtain ⟨new, hacc, hnd, hnotc, hiff⟩ := bfsExpand_clustered_spec nbr
            incidents minPoints
            (incidents.filter (fun other => nbr incident other))
            (incident.id :: v) c []
          rw [List.nil_append] at hacc
          apply ih
          · -- the concatenated member-id list stays duplicate-free
            rw [List.flatMap_append, List.map_append]
            refine List.Nodup.append h1 ?_ ?_
            · simpa [hacc] using hnd
            · intro s hs1 hs2
              have hs1c := h2 s hs1
              simp only [List.flatMap_cons, List.flatMap_nil, List.append_nil] at hs2
              rw [hacc] at hs2
              exact hnotc s hs2 hs1c
          · intro s hs
            rw [List.flatMap_append, List.map_append, List.mem_append] at hs
            rcases hs with h | h
            · exact (hiff s).mpr (Or.inl (h2 s h))
            · simp only [List.flatMap_cons, List.flatMap_nil, List.append_nil] at h
              rw [hacc] at h
              exact (hiff s).mpr (Or.inr h)
          · intro cp hcp
            rcases List.mem_append.mp hcp with h | h
            · exact h3 cp h
            · rw [List.mem_singleton] at h
              subst h
              refine ⟨?_, rfl, rfl, ?_⟩
              · intro hnil
                exact (List.length_pos.mp hpos) hnil
              · intro m hm
                exact bfsExpand_acc_mem nbr incidents minPoints
                  (fun m => ∃ x, nbr x m = true)
                  (fun cx x hx => ⟨cx, hx⟩)
                  _ _ _ _
                  (fun x hx => ⟨incident, (List.mem_filter.mp hx).2⟩)
                  (fun x hx => absurd hx (List.not_mem_nil x))
                  m hm
        · rw [show dbscanFold nbr incidents minPoints (incident :: rest) v c cl =
            dbscanFold nbr incidents minPoints rest
              (bfsExpand nbr incidents minPoints
                (incidents.filter (fun other => nbr incident other))
                (incident.id :: v) c []).2.1
              (bfsExpand nbr incidents minPoints
                (incidents.filter (fun other => nbr incident other))
                (incident.id :: v) c []).2.2
              cl from by
            rw [dbscanFold, if_neg hv]
            simp only [if_pos hlen, if_neg hpos]]
          obtain ⟨new, hacc, hnd, hnotc, hiff⟩ := bfsExpand_clustered_spec nbr
            incidents minPoints
            (incidents.filter (fun other => nbr incident other))
            (incident.id :: v) c []
          apply ih
          · exact h1
          · intro s hs
            exact (hiff s).mpr (Or.inl (h2 s hs))
          · exact h3
      · rw [show dbscanFold nbr incidents minPoints (incident :: rest) v c cl =
          dbscanFold nbr incidents minPoints rest (incident.id :: v) c cl from by
            rw [dbscanFold, if_neg hv]
            simp only [if_neg hlen]]
        exact ih (incident.id :: v) c cl h1 h2 h3

theorem performDBSCAN_spec (incidents : List CrimeIncident) (epsilon : JSNum)
    (minPoints : ℕ) :
    (((performDBSCAN incidents epsilon minPoints).flatMap (·.incidents)).map
      (·.id)).Nodup ∧
    ∀ c ∈ performDBSCAN incidents epsilon minPoints, ClusterOK (nearB epsilon) c := by
  rw [performDBSCAN]
  apply dbscanFold_spec <;> simp

/-- C10: across the clusters returned by `performDBSCAN` the member id lists
are globally duplicate-free (each incident id lands in at most one cluster,
at most once - so the member lists are pairwise disjoint), and every
returned cluster is non-empty. -/
theorem C10_dbscan_disjoint_nonempty :
    ∀ (incidents : List CrimeIncident) (epsilon : JSNum) (minPoints : ℕ),
    (((performDBSCAN incidents epsilon minPoints).flatMap (·.incidents)).map
      (·.id)).Nodup ∧
    (performDBSCAN incidents epsilon minPoints).Forall
      (fun c => c.incidents ≠ []) := by
  intro incs eps mp
  obtain ⟨h1, h2⟩ := performDBSCAN_spec incs eps mp
  refine ⟨h1, ?_⟩
  rw [List.forall_iff_forall_mem]
  exact fun c hc => (h2 c hc).1

theorem performDBSCAN_members_not_nan (incidents : List CrimeIncident)
    (epsilon : JSNum) (minPoints : ℕ) :
    ∀ c ∈ performDBSCAN incidents epsilon minPoints, ∀ m ∈ c.incidents,
      m.latitude ≠ none ∧ m.longitude ≠ none := by
  intro c hc m hm
  obtain ⟨-, -, -, h4⟩ := (performDBSCAN_spec incidents epsilon minPoints).2 c hc
  obtain ⟨x, hx⟩ := h4 m hm
  constructor
  · intro hnan
    rw [nearB_nan_other x (Or.inl hnan)] at hx
    simp at hx
  · intro hnan
    rw [nearB_nan_other x (Or.inr hnan)] at hx
    simp at hx

/-- C5: the clusterer and the hotspot predictor are pure functions of their
inputs (with `Date.now()` made the explicit `now` parameter): two runs on
equal inputs return equal outputs, field for field. -/
theorem C5_clusterer_deterministic :
    ∀ (incs1 incs2 : List CrimeIncident) (eps1 eps2 : JSNum) (mp1 mp2 : ℕ)
      (ch1 ch2 cd1 cd2 now1 now2 : ℝ),
    incs1 = incs2 → eps1 = eps2 → mp1 = mp2 → ch1 = ch2 → cd1 = cd2 →
    now1 = now2 →
    performDBSCAN incs1 eps1 mp1 = performDBSCAN incs2 eps2 mp2 ∧
    predictHotspots incs1 ch1 cd1 now1 = predictHotspots incs2 ch2 cd2 now2 := by
  intro incs1 incs2 eps1 eps2 mp1 mp2 ch1 ch2 cd1 cd2 now1 now2 h1 h2 h3 h4 h5 h6
  subst h1; subst h2; subst h3; subst h4; subst h5; subst h6
  exact ⟨rfl, rfl⟩

/-- Witness for `C5_clusterer_deterministic` on the empty incident list. -/
theorem C5_clusterer_deterministic_witness :
    ([] : List CrimeIncident) = [] ∧
      performDBSCAN [] (some 0.5) 10 = performDBSCAN [] (some 0.5) 10 ∧
      predictHotspots [] 0 0 0 = predictHotspots [] 0 0 0 :=
  ⟨rfl, C5_clusterer_deterministic [] [] (some 0.5) (some 0.5) 10 10 0 0 0 0 0 0
    rfl rfl rfl rfl rfl rfl⟩

/-- C6 (counterexample): three incidents at latitude `100` - finite but
outside `[-90, 90]` - are clustered like any others: validation of
coordinate ranges does not exist in `performDBSCAN`, so a malformed record
joins a cluster, refuting the rejection claim for out-of-range
coordinates. -/
theorem C6_malformed_rejection_counterexample :
    performDBSCAN [badInc "x1", badInc "x2", badInc "x3"] (some 0.5) 3 =
      [{ lat := some ((100 + 100 + 100) / 3),
         lng := some ((77.594 + 77.594 + 77.594) / 3),
         incidents := [badInc "x1", badInc "x2", badInc "x3"] }] ∧
    (badInc "x1").latitude = some 100 ∧ ¬ ((100 : ℝ) ≤ 90) := by
  refine ⟨?_, rfl, by norm_num⟩
  simp [performDBSCAN, dbscanFold, bfsExpand, pushUnvisited, nBad, idBad,
    latBad, lngBad, jdiv_some, clusterAvgLat, clusterAvgLng]

/-! ### Hotspot invariants (claim C8) -/

theorem severityScores_nonneg (s : Severity) : 0 ≤ severityScores s := by
  cases s <;> norm_num [severityScores]

theorem foldl_severity_nonneg : ∀ (l : List CrimeIncident) (a : ℝ), 0 ≤ a →
    0 ≤ l.foldl (fun sum inc => sum + severityScores inc.severity) a := by
  intro l
  induction l with
  | nil => intro a ha; exact ha
  | cons m l ih =>
    intro a ha
    rw [List.foldl_cons]
    exact ih _ (add_nonneg ha (severityScores_nonneg _))

theorem foldl_jadd_some (f : CrimeIncident → JSNum) :
    ∀ (l : List CrimeIncident), (∀ m ∈ l, f m ≠ none) → ∀ x : ℝ,
    ∃ s, l.foldl (fun sum i => jadd sum (f i)) (some x) = some s := by
  intro l
  induction l with
  | nil => intro _ x; exact ⟨x, rfl⟩
  | cons m l ih =>
    intro h x
    obtain ⟨y, hy⟩ := Option.ne_none_iff_exists'.mp (h m (List.mem_cons_self _ _))
    rw [List.foldl_cons, hy, jadd_some]
    exact ih (fun n hn => h n (List.mem_cons_of_mem _ hn)) (x + y)

theorem clusterAvgLat_ne_none {l : List CrimeIncident} (hne : l ≠ [])
    (h : ∀ m ∈ l, m.latitude ≠ none) : clusterAvgLat l ≠ none := by
  obtain ⟨s, hs⟩ := foldl_jadd_some (fun m => m.latitude) l h 0
  have hlen : ((l.length : ℝ)) ≠ 0 := by
    have := List.length_pos.mpr hne
    exact_mod_cast Nat.pos_iff_ne_zero.mp this
  rw [clusterAvgLat, hs, jdiv_some s hlen]
  simp

theorem clusterAvgLng_ne_none {l : List CrimeIncident} (hne : l ≠ [])
    (h : ∀ m ∈ l, m.longitude ≠ none) : clusterAvgLng l ≠ none := by
  obtain ⟨s, hs⟩ := foldl_jadd_some (fun m => m.longitude) l h 0
  have hlen : ((l.length : ℝ)) ≠ 0 := by
    have := List.length_pos.mpr hne
    exact_mod_cast Nat.pos_iff_ne_zero.mp this
  rw [clusterAvgLng, hs, jdiv_some s hlen]
  simp

theorem jsRound_nonneg {x : ℝ} (hx : 0 ≤ x) : 0 ≤ jsRound x := by
  rw [jsRound]
  apply Int.le_floor.mpr
  push_cast
  linarith

theorem mem_of_mem_enum {α : Type} {l : List α} {p : ℕ × α} (h : p ∈ l.enum) :
    p.2 ∈ l := by
  have hmap := List.enum_map_snd l
  rw [← hmap]
  exact List.mem_map_of_mem Prod.snd h

theorem mkPredictedHotspot_ok (index : ℕ) (cluster : ClusterPoint)
    (currentHour currentDay now : ℝ)
    (hne : cluster.incidents ≠ [])
    (hlat : cluster.lat = clusterAvgLat cluster.incidents)
    (hlng : cluster.lng = clusterAvgLng cluster.incidents)
    (hmem : ∀ m ∈ cluster.incidents, m.latitude ≠ none ∧ m.longitude ≠ none) :
    0 ≤ (mkPredictedHotspot index cluster currentHour currentDay now).radiusMeters ∧
    0 ≤ (mkPredictedHotspot index cluster currentHour currentDay now).riskScore ∧
    (mkPredictedHotspot index cluster currentHour currentDay now).centerLat ≠ none ∧
    (mkPredictedHotspot index cluster currentHour currentDay now).centerLng ≠ none := by
  refine ⟨?_, ?_, ?_, ?_⟩
  · show (0 : ℝ) ≤ 500
    norm_num
  · show 0 ≤ jsRound _
    apply jsRound_nonneg
    apply le_min (by norm_num)
    refine add_nonneg (add_nonneg (add_nonneg
      (mul_nonneg ?_ (by norm_num)) (mul_nonneg ?_ (by norm_num)))
      (mul_nonneg ?_ (by norm_num))) (mul_nonneg ?_ (by norm_num))
    · exact div_nonneg (foldl_severity_nonneg _ 0 le_rfl) (Nat.cast_nonneg _)
    · exact div_nonneg (Nat.cast_nonneg _) (Nat.cast_nonneg _)
    · exact div_nonneg (Nat.cast_nonneg _) (Nat.cast_nonneg _)
    · exact div_nonneg (Nat.cast_nonneg _) (Nat.cast_nonneg _)
  · show cluster.lat ≠ none
    rw [hlat]
    exact clusterAvgLat_ne_none hne (fun m hm => (hmem m hm).1)
  · show cluster.lng ≠ none
    rw [hlng]
    exact clusterAvgLng_ne_none hne (fun m hm => (hmem m hm).2)

/-- C8: every hotspot produced by `predictHotspots` - for any incident list,
including lists with NaN coordinates - has a non-negative radius, a
non-negative risk score, and a center with non-NaN latitude and
longitude. -/
theorem C8_hotspot_invariants :
    ∀ (incidents : List CrimeIncident) (currentHour currentDay now : ℝ),
    (predictHotspots incidents currentHour currentDay now).Forall
      (fun h => 0 ≤ h.radiusMeters ∧ 0 ≤ h.riskScore ∧
        h.centerLat ≠ none ∧ h.centerLng ≠ none) := by
  intro incs ch cd now
  rw [List.forall_iff_forall_mem]
  intro h hmem
  simp only [predictHotspots] at hmem
  rw [(List.mergeSort_perm _ _).mem_iff, List.mem_map] at hmem
  obtain ⟨⟨i, cluster⟩, hic, rfl⟩ := hmem
  have hcl : cluster ∈ performDBSCAN
      (incs.filter (fun inc =>
        decide ((now - inc.occurredAt) / (1000 * 60 * 60 * 24) ≤ 30)))
      (some 0.5) 8 := mem_of_mem_enum hic
  obtain ⟨hne, hlat, hlng, -⟩ := (performDBSCAN_spec _ _ _).2 cluster hcl
  exact mkPredictedHotspot_ok i cluster ch cd now hne hlat hlng
    (performDBSCAN_members_not_nan _ _ _ cluster hcl)

/-! ### A clustering run ignores records whose every neighbourhood test
fails (used for the NaN part of claim C6) -/

section DeadFilter

variable {nbr : CrimeIncident → CrimeIncident → Bool}
  {good : CrimeIncident → Bool}
  {incidents : List CrimeIncident}

theorem good_of_nbr (hdead2 : ∀ x, good x = false → ∀ y, nbr y x = false)
    {c x : CrimeIncident} (h : nbr c x = true) : good x = true := by
  cases hg : good x
  · rw [hdead2 x hg c] at h
    exact absurd h (by simp)
  · rfl

theorem good_id_not_dead (hids : (incidents.map (·.id)).Nodup)
    {g : CrimeIncident} (hg : g ∈ incidents) (hgood : good g = true) :
    g.id ∉ (incidents.filter (fun x => !good x)).map (·.id) := by
  intro hmem
  rw [List.mem_map] at hmem
  obtain ⟨d, hd, hdid⟩ := hmem
  have hdinc := List.mem_of_mem_filter hd
  have hdbad : good d = false := by
    have hx := (List.mem_filter.mp hd).2
    simpa using hx
  have hdg : d = g := List.inj_on_of_nodup_map hids hdinc hg hdid
  rw [hdg, hgood] at hdbad
  exact absurd hdbad (by simp)

theorem filter_good_nbr (hdead2 : ∀ x, good x = false → ∀ y, nbr y x = false)
    (x : CrimeIncident) :
    (incidents.filter good).filter (fun o => nbr x o) =
      incidents.filter (fun o => nbr x o) := by
  rw [List.filter_filter]
  refine List.filter_congr ?_
  intro a _
  cases hg : good a
  · rw [hdead2 a hg x]
    simp
  · simp

theorem pushUnvisited_agree (deadIds : List String) :
    ∀ (ns : List CrimeIncident) (v1 v2 : List String),
    (∀ n ∈ ns, n.id ∉ deadIds) → VisitedAgree deadIds v1 v2 →
    (pushUnvisited ns v1).2 = (pushUnvisited ns v2).2 ∧
    VisitedAgree deadIds (pushUnvisited ns v1).1 (pushUnvisited ns v2).1 := by
  intro ns
  induction ns with
  | nil => intro v1 v2 _ hR; exact ⟨rfl, hR⟩
  | cons n ns ih =>
    intro v1 v2 hnd hR
    have hid := hnd n (List.mem_cons_self _ _)
    have hmemiff := hR n.id hid
    rw [pushUnvisited, pushUnvisited]
    by_cases hv : n.id ∈ v1
    · rw [if_pos hv, if_pos (hmemiff.mp hv)]
      exact ih v1 v2 (fun m hm => hnd m (List.mem_cons_of_mem _ hm)) hR
    · rw [if_neg hv, if_neg (fun h => hv (hmemiff.mpr h))]
      have hR' : VisitedAgree deadIds (n.id :: v1) (n.id :: v2) := by
        intro s hs
        rw [List.mem_cons, List.mem_cons, hR s hs]
      obtain ⟨h1, h2⟩ := ih (n.id :: v1) (n.id :: v2)
        (fun m hm => hnd m (List.mem_cons_of_mem _ hm)) hR'
      exact ⟨by simp only [h1], h2⟩

theorem bfsExpand_agree
    (hdead2 : ∀ x, good x = false → ∀ y, nbr y x = false)
    (hids : (incidents.map (·.id)).Nodup) (minPoints : ℕ) :
    ∀ (queue : List CrimeIncident) (v1 clustered : List String)
      (acc : List CrimeIncident) (v2 : List String),
    (∀ x ∈ queue, x ∈ incidents ∧ good x = true) →
    VisitedAgree ((incidents.filter (fun x => !good x)).map (·.id)) v1 v2 →
    (bfsExpand nbr incidents minPoints queue v1 clustered acc).1 =
      (bfsExpand nbr (incidents.filter good) minPoints queue v2 clustered acc).1 ∧
    (bfsExpand nbr incidents minPoints queue v1 clustered acc).2.2 =
      (bfsExpand nbr (incidents.filter good) minPoints queue v2 clustered acc).2.2 ∧
    VisitedAgree ((incidents.filter (fun x => !good x)).map (·.id))
      (bfsExpand nbr incidents minPoints queue v1 clustered acc).2.1
      (bfsExpand nbr (incidents.filter good) minPoints queue v2 clustered acc).2.1 := by
  intro queue v1 clustered acc
  induction queue, v1, clustered, acc using bfsExpand.induct nbr incidents minPoints with
  | case1 v c acc =>
    intro v2 _ hR
    rw [bfsExpand_nil, bfsExpand_nil]
    exact ⟨rfl, rfl, hR⟩
  | case2 current rest v c acc hmem ih =>
    intro v2 hq hR
    rw [bfsExpand_cons_clustered nbr incidents minPoints rest v acc hmem,
      bfsExpand_cons_clustered nbr (incidents.filter good) minPoints rest v2 acc hmem]
    exact ih v2 (fun x hx => hq x (List.mem_cons_of_mem _ hx)) hR
  | case3 current rest v c acc hmem hc2 ha2 hcn hlen hr2 ih =>
    intro v2 hq hR
    have hfe := @filter_good_nbr nbr good incidents hdead2 current
    have hlen2 : minPoints ≤
        ((incidents.filter good).filter (fun o => nbr current o)).length := by
      rw [hfe]; exact hlen
    rw [bfsExpand_cons_dense nbr incidents minPoints rest v acc hmem hlen,
      bfsExpand_cons_dense nbr (incidents.filter good) minPoints rest v2 acc
        hmem hlen2, hfe]
    have hqgood : ∀ n ∈ incidents.filter (fun o => nbr current o),
        n.id ∉ (incidents.filter (fun x => !good x)).map (·.id) := by
      intro n hn
      exact good_id_not_dead hids (List.mem_of_mem_filter hn)
        (good_of_nbr hdead2 (List.mem_filter.mp hn).2)
    obtain ⟨hpush_eq, hpushR⟩ := pushUnvisited_agree
      ((incidents.filter (fun x => !good x)).map (·.id))
      (incidents.filter (fun o => nbr current o)) v v2 hqgood hR
    rw [← hpush_eq]
    apply ih
    · intro x hx
      rcases List.mem_append.mp hx with h | h
      · exact hq x (List.mem_cons_of_mem _ h)
      · have hxn := pushUnvisited_subset _ _ x h
        exact ⟨List.mem_of_mem_filter hxn,
          good_of_nbr hdead2 (List.mem_filter.mp hxn).2⟩
    · exact hpushR
  | case4 current rest v c acc hmem hc2 ha2 hcn hlen ih =>
    intro v2 hq hR
    have hfe := @filter_good_nbr nbr good incidents hdead2 current
    have hlen2 : ¬ minPoints ≤
        ((incidents.filter good).filter (fun o => nbr current o)).length := by
      rw [hfe]; exact hlen
    rw [bfsExpand_cons_sparse nbr incidents minPoints rest v acc hmem hlen,
      bfsExpand_cons_sparse nbr (incidents.filter good) minPoints rest v2 acc
        hmem hlen2]
    exact ih v2 (fun x hx => hq x (List.mem_cons_of_mem _ hx)) hR

theorem dbscanFold_agree
    (hdead1 : ∀ x, good x = false → ∀ y, nbr x y = false)
    (hdead2 : ∀ x, good x = false → ∀ y, nbr y x = false)
    (hids : (incidents.map (·.id)).Nodup) (minPoints : ℕ) :
    ∀ (rest : List CrimeIncident) (v1 v2 clustered : List String)
      (clusters : List ClusterPoint),
    (∀ x ∈ rest, x ∈ incidents) →
    VisitedAgree ((incidents.filter (fun x => !good x)).map (·.id)) v1 v2 →
    dbscanFold nbr incidents minPoints rest v1 clustered clusters =
      dbscanFold nbr (incidents.filter good) minPoints (rest.filter good) v2
        clustered clusters := by
  intro rest
  induction rest with
  | nil =>
    intro v1 v2 c cl _ _
    rw [List.filter_nil, dbscanFold, dbscanFold]
  | cons incident rest ih =>
    intro v1 v2 c cl hsub hR
    have hinc : incident ∈ incidents := hsub incident (List.mem_cons_self _ _)
    have hsub' : ∀ x ∈ rest, x ∈ incidents :=
      fun x hx => hsub x (List.mem_cons_of_mem _ hx)
    cases hg : good incident with
    | false =>
      rw [List.filter_cons_of_neg (by simp [hg])]
      have hidDead : incident.id ∈
          (incidents.filter (fun x => !good x)).map (·.id) :=
        List.mem_map_of_mem _ (List.mem_filter.mpr ⟨hinc, by simp [hg]⟩)
      have hR' : VisitedAgree ((incidents.filter (fun x => !good x)).map (·.id))
          (incident.id :: v1) v2 := by
        intro s hs
        rw [List.mem_cons]
        constructor
        · intro h
          rcases h with h | h
          · exact absurd (h ▸ hidDead) hs
          · exact (hR s hs).mp h
        · intro h
          exact Or.inr ((hR s hs).mpr h)
      simp only [dbscanFold]
      by_cases hv : incident.id ∈ v1
      · rw [if_pos hv]
        exact ih v1 v2 c cl hsub' hR
      · rw [if_neg hv]
        have hnb : incidents.filter (fun other => nbr incident other) = [] := by
          rw [List.filter_eq_nil_iff]
          intro a _
          rw [hdead1 incident hg a]
          simp
        rw [hnb]
        by_cases hmp : minPoints ≤ ([] : List CrimeIncident).length
        · rw [if_pos hmp, bfsExpand_nil]
          rw [if_neg (by simp)]
          exact ih (incident.id :: v1) v2 c cl hsub' hR'
        · rw [if_neg hmp]
          exact ih (incident.id :: v1) v2 c cl hsub' hR'
    | true =>
      rw [List.filter_cons_of_pos (by simp [hg])]
      have hnd : incident.id ∉
          (incidents.filter (fun x => !good x)).map (·.id) :=
        good_id_not_dead hids hinc hg
      have hviff := hR incident.id hnd
      simp only [dbscanFold]
      by_cases hv : incident.id ∈ v1
      · rw [if_pos hv, if_pos (hviff.mp hv)]
        exact ih v1 v2 c cl hsub' hR
      · rw [if_neg hv, if_neg (fun h => hv (hviff.mpr h))]
        have hfe := @filter_good_nbr nbr good incidents hdead2 incident
        rw [hfe]
        have hR' : VisitedAgree ((incidents.filter (fun x => !good x)).map (·.id))
            (incident.id :: v1) (incident.id :: v2) := by
          intro s hs
          rw [List.mem_cons, List.mem_cons, hR s hs]
        by_cases hlen : minPoints ≤
            (incidents.filter (fun other => nbr incident other)).length
        · rw [if_pos hlen, if_pos hlen]
          have hqgood : ∀ x ∈ incidents.filter (fun o => nbr incident o),
              x ∈ incidents ∧ good x = true := by
            intro x hx
            exact ⟨List.mem_of_mem_filter hx,
              good_of_nbr hdead2 (List.mem_filter.mp hx).2⟩
          obtain ⟨hb1, hb2, hb3⟩ := bfsExpand_agree hdead2 hids minPoints
            (incidents.filter (fun o => nbr incident o))
            (incident.id :: v1) c [] (incident.id :: v2) hqgood hR'
          rw [← hb1, ← hb2]
          by_cases hpos : 0 < (bfsExpand nbr incidents minPoints
              (incidents.filter (fun o => nbr incident o))
              (incident.id :: v1) c []).1.length
          · rw [if_pos hpos, if_pos hpos]
            exact ih _ _ _ _ hsub' hb3
          · rw [if_neg hpos, if_neg hpos]
            exact ih _ _ _ _ hsub' hb3
        · rw [if_neg hlen, if_neg hlen]
          exact ih (incident.id :: v1) (incident.id :: v2) c cl hsub' hR'

end DeadFilter

/-- C6 (amended): records with NaN coordinates are rejected by the
clusterer - no cluster member carries a NaN (`none`) latitude or longitude,
and, whenever the incident ids are duplicate-free, deleting the NaN
records from the input leaves the output of `performDBSCAN` entirely
unchanged; finite out-of-range coordinates, by contrast, are not
rejected (see the counterexample). -/
theorem C6_malformed_rejection_amended
    (incidents : List CrimeIncident) (epsilon : JSNum) (minPoints : ℕ)
    (hids : (incidents.map (·.id)).Nodup) :
    (∀ c ∈ performDBSCAN incidents epsilon minPoints, ∀ m ∈ c.incidents,
      m.latitude ≠ none ∧ m.longitude ≠ none) ∧
    performDBSCAN incidents epsilon minPoints =
      performDBSCAN
        (incidents.filter (fun m => m.latitude.isSome && m.longitude.isSome))
        epsilon minPoints := by
  refine ⟨performDBSCAN_members_not_nan incidents epsilon minPoints, ?_⟩
  have hnan : ∀ x : CrimeIncident,
      (x.latitude.isSome && x.longitude.isSome) = false →
      x.latitude = none ∨ x.longitude = none := by
    intro x hx
    by_cases hl : x.latitude = none
    · exact Or.inl hl
    · right
      have hls : x.latitude.isSome = true := Option.isSome_iff_ne_none.mpr hl
      rw [hls, Bool.true_and] at hx
      exact Option.not_isSome_iff_eq_none.mp (by simp [hx])
  have hdead1 : ∀ x : CrimeIncident,
      (x.latitude.isSome && x.longitude.isSome) = false →
      ∀ y, nearB epsilon x y = false :=
    fun x hx y => nearB_nan_center y (hnan x hx)
  have hdead2 : ∀ x : CrimeIncident,
      (x.latitude.isSome && x.longitude.isSome) = false →
      ∀ y, nearB epsilon y x = false :=
    fun x hx y => nearB_nan_other y (hnan x hx)
  rw [performDBSCAN, performDBSCAN]
  exact dbscanFold_agree hdead1 hdead2 hids minPoints incidents [] [] [] []
    (fun x hx => hx) (fun s _ => Iff.rfl)

/-- Witness for `C6_malformed_rejection_amended`: one incident whose
latitude is NaN, with duplicate-free ids. -/
theorem C6_malformed_rejection_amended_witness :
    (([nanInc] : List CrimeIncident).map (·.id)).Nodup ∧
    performDBSCAN [nanInc] (some 0.5) 10 =
      performDBSCAN
        (([nanInc] : List CrimeIncident).filter
          (fun m => m.latitude.isSome && m.longitude.isSome))
        (some 0.5) 10 :=
  ⟨by simp, (C6_malformed_rejection_amended [nanInc] (some 0.5) 10 (by simp)).2⟩

end SafeCity
